import Mathlib

/-!
# Verification of the mo-de Monopoly-style game server core

Shallow embedding of the rules engine (`src/backend/src/game/engine.rs`),
the board catalog (`board.rs`), the state model (`state.rs`) and the bot
decision module (`bot/decision.rs`) of the repository, together with
theorems settling the specification claims about them.

Conventions:
* Rust `Uuid` player ids are modelled as `Nat`.
* Rust `u8`/`u32`/`usize` quantities are `Nat` (no overflow is reachable at
  the magnitudes involved, except where noted: the `amount as i32` cast in
  `place_bid`/`end_auction` is modelled exactly by `toI32`).
* Rust `i32` balances are `Int`.
* The Rust `HashMap<u8, PropertyState>` is modelled as an association list
  `List (Nat × PropertyState)`; Rust `HashMap` key uniqueness becomes an
  explicit `Nodup` hypothesis where a theorem needs it.
* Fallible operations return `Except AppError GameState`; RNG-driven
  operations take the drawn dice as explicit arguments.
* `f32` arithmetic (`unmortgage_property`, `calculate_max_bid`) is modelled
  exactly over dyadic rationals with round-to-nearest-even to a 24-bit
  significand, see the `F32` section.
-/

namespace Monopoly

/-- Player identifier (models `uuid::Uuid`). -/
abbrev Uuid := Nat

/-! ## Board catalog (`board.rs`) -/

/-- Type of tile on the board (`board.rs::TileType`). -/
inductive TileType where
  | go
  | property
  | railroad
  | utility
  | chance
  | communityChest
  | tax
  | freeParking
  | jail
  | goToJail
  deriving DecidableEq, Repr

/-- Color group for properties (`board.rs::ColorGroup`). -/
inductive ColorGroup where
  | brown
  | lightBlue
  | pink
  | orange
  | red
  | yellow
  | green
  | darkBlue
  | railroad
  | utility
  deriving DecidableEq, Repr, Inhabited, Fintype

/-- `ColorGroup::property_count`. -/
def ColorGroup.property_count : ColorGroup → Nat
  | .brown | .darkBlue => 2
  | .railroad => 4
  | .utility => 2
  | _ => 3

/-- A tile on the board (`board.rs::Tile`). -/
structure Tile where
  index : Nat
  name : String
  tile_type : TileType
  group : Option ColorGroup
  price : Nat
  rent_base : Nat
  rent_schedule : List Nat
  mortgage_value : Nat
  build_cost : Nat
  country_code : Option String
  deriving DecidableEq, Repr

/-- `Tile::go`. -/
def Tile.go : Tile :=
  ⟨0, "START", .go, none, 0, 0, [], 0, 0, none⟩

/-- `Tile::property` (note `mortgage_value = price / 2`). -/
def Tile.mkProperty (index : Nat) (name : String) (group : ColorGroup)
    (price rent_base : Nat) (rent_schedule : List Nat) (build_cost : Nat)
    (country_code : String) : Tile :=
  ⟨index, name, .property, some group, price, rent_base, rent_schedule,
    price / 2, build_cost, some country_code⟩

/-- `Tile::railroad`. -/
def Tile.mkRailroad (index : Nat) (name : String) (country_code : String) : Tile :=
  ⟨index, name, .railroad, some .railroad, 200, 25, [25, 50, 100, 200], 100, 0,
    some country_code⟩

/-- `Tile::utility`. -/
def Tile.mkUtility (index : Nat) (name : String) : Tile :=
  ⟨index, name, .utility, some .utility, 150, 4, [4, 10], 75, 0, none⟩

/-- `Tile::chance`. -/
def Tile.mkChance (index : Nat) : Tile :=
  ⟨index, "Surprise", .chance, none, 0, 0, [], 0, 0, none⟩

/-- `Tile::community_chest`. -/
def Tile.mkCommunityChest (index : Nat) : Tile :=
  ⟨index, "Treasure", .communityChest, none, 0, 0, [], 0, 0, none⟩

/-- `Tile::tax`. -/
def Tile.mkTax (index : Nat) (name : String) (amount : Nat) : Tile :=
  ⟨index, name, .tax, none, 0, amount, [], 0, 0, none⟩

/-- `Tile::jail`. -/
def Tile.mkJail : Tile :=
  ⟨10, "In Prison", .jail, none, 0, 0, [], 0, 0, none⟩

/-- `Tile::free_parking`. -/
def Tile.mkFreeParking : Tile :=
  ⟨20, "Vacation", .freeParking, none, 0, 0, [], 0, 0, none⟩

/-- `Tile::go_to_jail`. -/
def Tile.mkGoToJail : Tile :=
  ⟨30, "Go to prison", .goToJail, none, 0, 0, [], 0, 0, none⟩

/-- The complete 40-tile board (`board.rs::BOARD`). -/
def board : List Tile :=
  [ Tile.go,
    Tile.mkProperty 1 "Salvador" .brown 60 2 [10, 30, 90, 160, 250] 50 "BR",
    Tile.mkCommunityChest 2,
    Tile.mkProperty 3 "Rio" .brown 60 4 [20, 60, 180, 320, 450] 50 "BR",
    Tile.mkTax 4 "Income Tax 10%" 200,
    Tile.mkRailroad 5 "TLV Airport" "IL",
    Tile.mkProperty 6 "Tel Aviv" .lightBlue 100 6 [30, 90, 270, 400, 550] 50 "IL",
    Tile.mkChance 7,
    Tile.mkProperty 8 "Haifa" .lightBlue 100 6 [30, 90, 270, 400, 550] 50 "IL",
    Tile.mkProperty 9 "Jerusalem" .lightBlue 120 8 [40, 100, 300, 450, 600] 50 "IL",
    Tile.mkJail,
    Tile.mkProperty 11 "Venice" .pink 140 10 [50, 150, 450, 625, 750] 100 "IT",
    Tile.mkUtility 12 "Electric Company",
    Tile.mkProperty 13 "Milan" .pink 140 10 [50, 150, 450, 625, 750] 100 "IT",
    Tile.mkProperty 14 "Rome" .pink 160 12 [60, 180, 500, 700, 900] 100 "IT",
    Tile.mkRailroad 15 "MUC Airport" "DE",
    Tile.mkProperty 16 "Frankfurt" .orange 180 14 [70, 200, 550, 750, 950] 100 "DE",
    Tile.mkCommunityChest 17,
    Tile.mkProperty 18 "Treasure" .orange 180 14 [70, 200, 550, 750, 950] 100 "DE",
    Tile.mkProperty 19 "Munich" .orange 200 16 [80, 220, 600, 800, 1000] 100 "DE",
    Tile.mkFreeParking,
    Tile.mkProperty 21 "Berlin" .red 220 18 [90, 250, 700, 875, 1050] 150 "DE",
    Tile.mkChance 22,
    Tile.mkProperty 23 "Manchester" .red 220 18 [90, 250, 700, 875, 1050] 150 "GB",
    Tile.mkProperty 24 "Liverpool" .red 240 20 [100, 300, 750, 925, 1100] 150 "GB",
    Tile.mkRailroad 25 "JFK Airport" "US",
    Tile.mkProperty 26 "Paris" .yellow 260 22 [110, 330, 800, 975, 1150] 150 "FR",
    Tile.mkProperty 27 "Toulouse" .yellow 260 22 [110, 330, 800, 975, 1150] 150 "FR",
    Tile.mkUtility 28 "Water Company",
    Tile.mkProperty 29 "Lyon" .yellow 280 24 [120, 360, 850, 1025, 1200] 150 "FR",
    Tile.mkGoToJail,
    Tile.mkProperty 31 "CDG Airport" .green 300 26 [130, 390, 900, 1100, 1275] 200 "FR",
    Tile.mkProperty 32 "Shanghai" .green 300 26 [130, 390, 900, 1100, 1275] 200 "CN",
    Tile.mkCommunityChest 33,
    Tile.mkProperty 34 "Beijing" .green 320 28 [150, 450, 1000, 1200, 1400] 200 "CN",
    Tile.mkRailroad 35 "Shenzhen" "CN",
    Tile.mkChance 36,
    Tile.mkProperty 37 "New York" .darkBlue 350 35 [175, 500, 1100, 1300, 1500] 200 "US",
    Tile.mkTax 38 "Luxury Tax" 100,
    Tile.mkProperty 39 "Tokyo" .darkBlue 400 50 [200, 600, 1400, 1700, 2000] 200 "JP" ]

/-- `board.rs::get_tile`: `BOARD.get(idx as usize)`. -/
def get_tile (idx : Nat) : Option Tile :=
  board.get? idx

/-! ## State model (`state.rs`) -/

/-- `state.rs::GameConfig`. -/
structure GameConfig where
  max_players : Nat
  starting_cash : Int
  free_parking_jackpot : Bool
  auction_on_decline : Bool
  collect_rent_in_jail : Bool
  even_build_rule : Bool
  double_rent_on_full_set : Bool
  deriving DecidableEq, Repr

/-- `GameConfig::default`. -/
def GameConfig.default : GameConfig :=
  ⟨4, 1500, false, true, false, true, true⟩

/-- `state.rs::GamePhase`. -/
inductive GamePhase where
  | lobby
  | rollingOrder
  | playing
  | gameOver
  deriving DecidableEq, Repr

/-- `state.rs::TurnPhase`. -/
inductive TurnPhase where
  | waitingForRoll
  | rolling
  | moving
  | buyDecision
  | auction
  | payingRent
  | bankruptcy
  | turnEnd
  deriving DecidableEq, Repr

/-- `state.rs::TurnState`. -/
structure TurnState where
  player_id : Uuid
  dice : Option (Nat × Nat)
  doubles_count : Nat
  phase : TurnPhase
  can_roll_again : Bool
  deriving DecidableEq, Repr

/-- `TurnState::new`. -/
def TurnState.new (player_id : Uuid) : TurnState :=
  ⟨player_id, none, 0, .waitingForRoll, false⟩

/-- `TurnState::dice_sum`: `self.dice.map(|(a, b)| a + b).unwrap_or(0)`. -/
def TurnState.dice_sum (t : TurnState) : Nat :=
  (t.dice.map (fun d => d.1 + d.2)).getD 0

/-- `state.rs::Player`. -/
structure Player where
  id : Uuid
  name : String
  color : String
  position : Nat
  balance : Int
  in_jail : Bool
  jail_turns : Nat
  get_out_cards : Nat
  is_bot : Bool
  is_bankrupt : Bool
  is_host : Bool
  deriving DecidableEq, Repr

/-- `state.rs::PropertyState`. -/
structure PropertyState where
  owner : Option Uuid
  houses : Nat
  is_mortgaged : Bool
  deriving DecidableEq, Repr

/-- `PropertyState::default`. -/
def PropertyState.default : PropertyState :=
  ⟨none, 0, false⟩

/-- `state.rs::AuctionState`. -/
structure AuctionState where
  tile_idx : Nat
  current_bid : Nat
  highest_bidder : Option Uuid
  passed_players : List Uuid
  deriving DecidableEq, Repr

/-- `AuctionState::new`. -/
def AuctionState.new (tile_idx : Nat) : AuctionState :=
  ⟨tile_idx, 0, none, []⟩

/-- `state.rs::TradeAssets`. -/
structure TradeAssets where
  money : Nat
  properties : List Nat
  get_out_cards : Nat
  deriving DecidableEq, Repr

/-- `state.rs::TradeStatus`. -/
inductive TradeStatus where
  | pending
  | accepted
  | rejected
  | countered
  deriving DecidableEq, Repr

/-- `state.rs::TradeOffer`. -/
structure TradeOffer where
  id : Uuid
  from_player : Uuid
  to_player : Uuid
  offering : TradeAssets
  requesting : TradeAssets
  status : TradeStatus
  deriving DecidableEq, Repr

/-- `state.rs::GameState`.  The Rust `HashMap<u8, PropertyState>` is an
association list; HashMap key uniqueness is an explicit hypothesis where a
theorem needs it. -/
structure GameState where
  id : String
  phase : GamePhase
  turn : Option TurnState
  turn_order : List Uuid
  current_turn_idx : Nat
  players : List Player
  properties : List (Nat × PropertyState)
  auction : Option AuctionState
  active_trade : Option TradeOffer
  pot_money : Int
  config : GameConfig
  logs : List String
  deriving DecidableEq, Repr

/-- `GameState::get_player`: first player with the given id. -/
def GameState.get_player (g : GameState) (id : Uuid) : Option Player :=
  g.players.find? (fun p => p.id == id)

/-- `GameState::active_player_count`. -/
def GameState.active_player_count (g : GameState) : Nat :=
  (g.players.filter (fun p => !p.is_bankrupt)).length

/-- `GameState::log`: append and trim the ring to the last 100 entries
(`logs.remove(0)` once the length exceeds 100). -/
def GameState.addLog (g : GameState) (message : String) : GameState :=
  let logs := g.logs ++ [message]
  { g with logs := if logs.length > 100 then logs.tail else logs }

/-! ### Functional update helpers

Rust mutates the first list element found by `iter().position(...)` /
`HashMap::get_mut`; `updateFirst` is the functional image of that pattern. -/

/-- Replace the first element satisfying `p` by its image under `f`. -/
def updateFirst {α : Type} (p : α → Bool) (f : α → α) : List α → List α
  | [] => []
  | a :: rest => if p a then f a :: rest else a :: updateFirst p f rest

/-- Update the first player with the given id (image of
`game.players[player_idx] = ...` after `position(|p| p.id == id)`). -/
def GameState.updatePlayer (g : GameState) (id : Uuid) (f : Player → Player) :
    GameState :=
  { g with players := updateFirst (fun p => p.id == id) f g.players }

/-- `HashMap::get` on the association list: first entry with the key. -/
def propGet (props : List (Nat × PropertyState)) (k : Nat) : Option PropertyState :=
  (props.find? (fun kv => kv.1 == k)).map Prod.snd

/-- `HashMap::get_mut` followed by a field update: update the first entry
with the key. -/
def propUpdate (props : List (Nat × PropertyState)) (k : Nat)
    (f : PropertyState → PropertyState) : List (Nat × PropertyState) :=
  updateFirst (fun kv => kv.1 == k) (fun kv => (kv.1, f kv.2)) props

/-- Update the property entry for a tile index in the game state. -/
def GameState.updateProp (g : GameState) (k : Nat)
    (f : PropertyState → PropertyState) : GameState :=
  { g with properties := propUpdate g.properties k f }

/-! ## Errors (`error.rs`) -/

/-- `error.rs::AppError` (only the variants the engine produces). -/
inductive AppError where
  | notFound (msg : String)
  | badRequest (msg : String)
  | forbidden (msg : String)
  | gameError (msg : String)
  | internal (msg : String)
  deriving DecidableEq, Repr

/-- Result type of an engine operation: either a domain error (no state is
persisted) or the successor game state (which the engine persists). -/
abbrev EngineResult := Except AppError GameState

/-! ## Exact model of IEEE-754 binary32 arithmetic

All `f32` values appearing in the engine and bot module are nonnegative
normal numbers well inside the binary32 range, so an `f32` value is a dyadic
rational `m / 2^e` with `m < 2^24`, represented as the pair `(m, e) : Nat × Nat`.
Arithmetic computes the exact dyadic result and rounds it to a 24-bit
significand with round-to-nearest, ties-to-even — exactly the IEEE-754
default rounding that Rust `f32` operations use. -/

/-- Round `n / 2^s` to the nearest integer, ties to even. -/
def rdivPow2 (n s : Nat) : Nat :=
  if s = 0 then n
  else
    let q := n / 2 ^ s
    let r := n % 2 ^ s
    let h := 2 ^ (s - 1)
    if h < r then q + 1 else if r < h then q else if q % 2 = 0 then q else q + 1

/-- Round `n / q` to the nearest integer, ties to even. -/
def rdiv (n q : Nat) : Nat :=
  let d := n / q
  let r := n % q
  if q < 2 * r then d + 1 else if 2 * r < q then d else if d % 2 = 0 then d else d + 1

/-- `⌊log₂ m⌋` for `1 ≤ m < 2^200`, computed by counting the powers of two
below `m` (kernel-reducible, unlike the well-founded `Nat.log2`). -/
def log2b (m : Nat) : Nat :=
  ((List.range 200).filter (fun i => 2 ^ (i + 1) ≤ m)).length

/-- The shift that brings `num ≥ 2^24` down to a 24-bit significand:
`bitlength num - 24`, computed by counting (kernel-reducible). -/
def f32Shift (num : Nat) : Nat :=
  ((List.range 131).filter (fun i => 2 ^ (24 + i) ≤ num)).length

/-- Round the exact dyadic value `num / 2^exp` to a 24-bit significand
(round to nearest, ties to even), keeping the denominator exponent. -/
def f32Round (num exp : Nat) : Nat × Nat :=
  if num < 2 ^ 24 then (num, exp)
  else
    let s := f32Shift num
    (rdivPow2 num s * 2 ^ s, exp)

/-- `f32` multiplication: exact product, then one rounding. -/
def f32Mul (a b : Nat × Nat) : Nat × Nat :=
  f32Round (a.1 * b.1) (a.2 + b.2)

/-- `f32` addition (nonnegative operands): exact sum, then one rounding. -/
def f32Add (a b : Nat × Nat) : Nat × Nat :=
  let e := max a.2 b.2
  f32Round (a.1 * 2 ^ (e - a.2) + b.1 * 2 ^ (e - b.2)) e

/-- The Rust `as`-cast of a nonnegative `f32` to an integer type whose range
contains it: truncation toward zero. -/
def f32Trunc (a : Nat × Nat) : Nat :=
  a.1 / 2 ^ a.2

/-- `n as f32` for a natural number (rounds once when `n ≥ 2^24`). -/
def f32OfNat (n : Nat) : Nat × Nat :=
  f32Round n 0

/-- The binary32 value of the decimal literal `p / q` (for positive values
in the normal range with exponent above `-126`): round the real quotient to
24 significant bits, nearest, ties to even. -/
def f32OfRat (p q : Nat) : Nat × Nat :=
  let s := log2b (p * 2 ^ 126 / q)
  (rdiv (p * 2 ^ (149 - s)) q, 149 - s)

/-- The `f32` literal `1.1`. -/
def f32Lit1_1 : Nat × Nat := f32OfRat 11 10

/-- The `f32` literal `1.8`. -/
def f32Lit1_8 : Nat × Nat := f32OfRat 9 5

/-- The `f32` literal `1.5`. -/
def f32Lit1_5 : Nat × Nat := f32OfRat 3 2

/-- The `f32` literal `0.1`. -/
def f32Lit0_1 : Nat × Nat := f32OfRat 1 10

/-- The `f32` literal `0.5`. -/
def f32Lit0_5 : Nat × Nat := f32OfRat 1 2

/-- The Rust cast `u32 as i32` (two's-complement reinterpretation), used by
`place_bid`'s balance comparison and `end_auction`'s debit. -/
def toI32 (n : Nat) : Int :=
  if n < 2 ^ 31 then (n : Int) else (n : Int) - 2 ^ 32

/-! ## Rules engine (`engine.rs`) -/

/-- The recurring `if let Some(t) = game.turn.as_mut() { t.phase = ph }`. -/
def setTurnPhase (g : GameState) (ph : TurnPhase) : GameState :=
  { g with turn := g.turn.map (fun t => { t with phase := ph }) }

/-- `GameEngine::player_has_full_set`. -/
def player_has_full_set (g : GameState) (player_id : Uuid) (group : ColorGroup) : Bool :=
  ((board.filter (fun t => t.group == some group)).map (fun t => t.index)).all
    (fun idx => ((propGet g.properties idx).map (fun p => p.owner == some player_id)).getD false)

/-- The railroad/utility counting loop inside `GameEngine::calculate_rent`:
number of property entries owned by `owner_id` whose tile has type `tt`. -/
def ownedCountOfType (g : GameState) (owner_id : Uuid) (tt : TileType) : Nat :=
  (g.properties.filter (fun kv =>
    kv.2.owner == some owner_id &&
      ((get_tile kv.1).map (fun t => t.tile_type == tt)).getD false)).length

/-- `GameEngine::calculate_rent`. -/
def calculate_rent (g : GameState) (tile_idx : Nat) : Nat :=
  match get_tile tile_idx with
  | none => 0
  | some tile =>
    match propGet g.properties tile_idx with
    | none => 0
    | some prop_state =>
      match prop_state.owner with
      | none => 0
      | some owner_id =>
        if prop_state.is_mortgaged then 0
        else
          match tile.tile_type with
          | .property =>
            let houses := prop_state.houses
            if houses > 0 then (tile.rent_schedule.get? (houses - 1)).getD tile.rent_base
            else
              -- Rust `tile.group.unwrap()`: every Property tile of the board has a group
              let group := tile.group.get!
              let has_full_set := player_has_full_set g owner_id group
              if has_full_set && g.config.double_rent_on_full_set then tile.rent_base * 2
              else tile.rent_base
          | .railroad =>
            let rr_count := ownedCountOfType g owner_id .railroad
            (tile.rent_schedule.get? (rr_count - 1)).getD 25
          | .utility =>
            let util_count := ownedCountOfType g owner_id .utility
            let multiplier := if util_count ≥ 2 then 10 else 4
            let dice_sum := (g.turn.map (fun t => t.dice_sum)).getD 7
            dice_sum * multiplier
          | _ => 0

/-- `GameEngine::transfer_money`. -/
def transfer_money (g : GameState) (fromId toId : Uuid) (amount : Int)
    (reason : String) : GameState :=
  match g.get_player fromId, g.get_player toId with
  | some fp, some tp =>
    (((g.updatePlayer fromId (fun p => { p with balance := p.balance - amount })).updatePlayer
        toId (fun p => { p with balance := p.balance + amount })).addLog
      (fp.name ++ " paid " ++ toString amount ++ " to " ++ tp.name ++ " for " ++ reason))
  | _, _ => g

/-- `GameEngine::send_to_jail`. -/
def send_to_jail (g : GameState) (player_id : Uuid) : GameState :=
  let g :=
    match g.get_player player_id with
    | some pl =>
      ((g.updatePlayer player_id
          (fun p => { p with position := 10, in_jail := true, jail_turns := 0 })).addLog
        (pl.name ++ " was sent to jail!"))
    | none => g
  { g with
    turn := g.turn.map (fun t =>
      { t with phase := .turnEnd, can_roll_again := false, doubles_count := 0 }) }

/-- `GameEngine::handle_tile_landing`. -/
def handle_tile_landing (g : GameState) (player_id : Uuid) (tile_idx : Nat) :
    EngineResult :=
  match get_tile tile_idx with
  | none => .error (.gameError "Invalid tile")
  | some tile =>
    match tile.tile_type with
    | .go => .ok (setTurnPhase g .turnEnd)
    | .property | .railroad | .utility =>
      match (propGet g.properties tile_idx).bind (fun p => p.owner) with
      | none => .ok (setTurnPhase g .buyDecision)
      | some owner_id =>
        if owner_id == player_id then .ok (setTurnPhase g .turnEnd)
        else
          let is_mortgaged :=
            ((propGet g.properties tile_idx).map (fun p => p.is_mortgaged)).getD false
          let g :=
            if !is_mortgaged then
              let owner_in_jail :=
                ((g.get_player owner_id).map (fun p => p.in_jail)).getD false
              if !owner_in_jail || g.config.collect_rent_in_jail then
                let rent := calculate_rent g tile_idx
                transfer_money g player_id owner_id (rent : Int) ("rent on " ++ tile.name)
              else g
            else g
          .ok (setTurnPhase g .turnEnd)
    | .tax =>
      let g :=
        match g.get_player player_id with
        | some pl =>
          let tax : Int := tile.rent_base
          let g := g.updatePlayer player_id (fun p => { p with balance := p.balance - tax })
          let g :=
            if g.config.free_parking_jackpot then { g with pot_money := g.pot_money + tax }
            else g
          g.addLog (pl.name ++ " paid tax")
        | none => g
      .ok (setTurnPhase g .turnEnd)
    | .chance =>
      let g :=
        match g.get_player player_id with
        | some pl => g.addLog (pl.name ++ " drew a Surprise card")
        | none => g
      .ok (setTurnPhase g .turnEnd)
    | .communityChest =>
      let g :=
        match g.get_player player_id with
        | some pl => g.addLog (pl.name ++ " drew a Treasure card")
        | none => g
      .ok (setTurnPhase g .turnEnd)
    | .freeParking =>
      let g :=
        if g.config.free_parking_jackpot && g.pot_money > 0 then
          let pot := g.pot_money
          let g :=
            match g.get_player player_id with
            | some pl =>
              ((g.updatePlayer player_id (fun p => { p with balance := p.balance + pot })).addLog
                (pl.name ++ " collected the Free Parking pot!"))
            | none => g
          { g with pot_money := 0 }
        else g
      .ok (setTurnPhase g .turnEnd)
    | .jail => .ok (setTurnPhase g .turnEnd)
    | .goToJail => .ok (send_to_jail g player_id)

/-- The movement step of `GameEngine::roll_dice` (lines 381–392): compute
the new position modulo 40, apply it, and credit $200 exactly on strict
wrap-around.  Returns the updated state with `(old_pos, new_pos, passed_go)`. -/
def moveStep (g : GameState) (player_id : Uuid) (dice_sum : Nat) :
    GameState × Nat × Nat × Bool :=
  let old_pos := ((g.get_player player_id).map (fun p => p.position)).getD 0
  let new_pos := (old_pos + dice_sum) % 40
  let passed_go := decide (new_pos < old_pos ∧ old_pos ≠ 0)
  let g := g.updatePlayer player_id (fun p => { p with position := new_pos })
  let g :=
    if passed_go then
      ((g.updatePlayer player_id (fun p => { p with balance := p.balance + 200 })).addLog
        (((g.get_player player_id).map (fun p => p.name)).getD "" ++
          " passed GO and collected 200"))
    else g
  (g, old_pos, new_pos, passed_go)

/-- `GameEngine::roll_dice`, with the two drawn dice
(`rng.gen_range(1..=6)` each) passed explicitly. -/
def roll_dice (g : GameState) (d1 d2 : Nat) : EngineResult :=
  match g.turn with
  | none => .error (.gameError "No active turn")
  | some turn0 =>
    if turn0.phase ≠ .waitingForRoll then .error (.gameError "Cannot roll now")
    else
      let is_doubles := d1 == d2
      let dice_sum := d1 + d2
      let turn : TurnState :=
        { turn0 with
          dice := some (d1, d2), phase := .moving,
          doubles_count :=
            if is_doubles then turn0.doubles_count + 1 else turn0.doubles_count }
      let g := { g with turn := some turn }
      let player_id := turn.player_id
      if turn.doubles_count ≥ 3 then .ok (send_to_jail g player_id)
      else
        match g.get_player player_id with
        | none => .error (.gameError "Player not found")
        | some player =>
          -- jail handling; `Sum.inr` is the early return that keeps the player in jail
          let jailStep : GameState ⊕ GameState :=
            if player.in_jail then
              if is_doubles then
                Sum.inl
                  ((g.updatePlayer player_id
                      (fun p => { p with in_jail := false, jail_turns := 0 })).addLog
                    (player.name ++ " rolled doubles and escaped jail!"))
              else
                let g :=
                  g.updatePlayer player_id (fun p => { p with jail_turns := p.jail_turns + 1 })
                if ((g.get_player player_id).map (fun p => p.jail_turns)).getD 0 ≥ 3 then
                  Sum.inl
                    ((g.updatePlayer player_id
                        (fun p => { p with balance := p.balance - 50, in_jail := false, jail_turns := 0 })).addLog
                      (player.name ++ " was forced to pay 50 bail"))
                else
                  let g := g.addLog (player.name ++ " failed to roll doubles in jail")
                  Sum.inr
                    { g with
                      turn := g.turn.map (fun t =>
                        { t with phase := .turnEnd, can_roll_again := false }) }
            else Sum.inl g
          match jailStep with
          | Sum.inr g => .ok g
          | Sum.inl g =>
            let step := moveStep g player_id dice_sum
            let g := step.1
            let new_pos := step.2.2.1
            match handle_tile_landing g player_id new_pos with
            | .error e => .error e
            | .ok g =>
              let still_in_jail := ((g.get_player player_id).map (fun p => p.in_jail)).getD false
              let g :=
                if is_doubles && !still_in_jail then
                  { g with turn := g.turn.map (fun t => { t with can_roll_again := true }) }
                else g
              .ok g

/-- `GameEngine::buy_property`. -/
def buy_property (g : GameState) : EngineResult :=
  match g.turn with
  | none => .error (.gameError "No active turn")
  | some turn =>
    if turn.phase ≠ .buyDecision then .error (.gameError "Cannot buy now")
    else
      let player_id := turn.player_id
      let position := ((g.get_player player_id).map (fun p => p.position)).getD 0
      match get_tile position with
      | none => .error (.gameError "Invalid tile")
      | some tile =>
        match g.get_player player_id with
        | none => .error (.gameError "Player not found")
        | some player =>
          if player.balance < (tile.price : Int) then .error (.gameError "Not enough money")
          else
            let g := g.updatePlayer player_id
              (fun p => { p with balance := p.balance - (tile.price : Int) })
            let g := g.updateProp position (fun pr => { pr with owner := some player_id })
            let g := g.addLog (player.name ++ " bought " ++ tile.name)
            .ok (setTurnPhase g .turnEnd)

/-- `GameEngine::start_auction`. -/
def start_auction (g : GameState) : EngineResult :=
  match g.turn with
  | none => .error (.gameError "No active turn")
  | some turn =>
    if turn.phase ≠ .buyDecision then .error (.gameError "Cannot start auction now")
    else
      let position := ((g.get_player turn.player_id).map (fun p => p.position)).getD 0
      if !g.config.auction_on_decline then .ok (setTurnPhase g .turnEnd)
      else
        let g := { g with auction := some (AuctionState.new position) }
        let g := setTurnPhase g .auction
        let tile_name := ((get_tile position).map (fun t => t.name)).getD ""
        .ok (g.addLog ("Auction started for " ++ tile_name))

/-- `GameEngine::place_bid`.  The Rust balance comparison is
`player_balance < amount as i32`, hence `toI32`. -/
def place_bid (g : GameState) (player_id : Uuid) (amount : Nat) : EngineResult :=
  let player_balance := ((g.get_player player_id).map (fun p => p.balance)).getD 0
  if player_balance < toI32 amount then .error (.gameError "Not enough money")
  else
    let current_bid := (g.auction.map (fun a => a.current_bid)).getD 0
    if amount ≤ current_bid then .error (.gameError "Bid must be higher")
    else
      .ok
        { g with
          auction := g.auction.map (fun a =>
            { a with current_bid := amount, highest_bidder := some player_id }) }

/-- `GameEngine::end_auction` (it can only return `Ok`). -/
def end_auction (g : GameState) : GameState :=
  match g.auction with
  | none => g
  | some auction =>
    let g := { g with auction := none }
    let tile_idx := auction.tile_idx
    let tile_name := ((get_tile tile_idx).map (fun t => t.name)).getD ""
    let g :=
      match auction.highest_bidder with
      | some winner_id =>
        (match g.get_player winner_id with
          | some winner =>
            let g := g.updatePlayer winner_id
              (fun p => { p with balance := p.balance - toI32 auction.current_bid })
            let g := g.updateProp tile_idx (fun pr => { pr with owner := some winner_id })
            g.addLog (winner.name ++ " won " ++ tile_name ++ " at auction")
          | none => g)
      | none => g.addLog ("Auction for " ++ tile_name ++ " ended with no bids")
    setTurnPhase g .turnEnd

/-- `GameEngine::pass_bid`.  (The Rust end-of-auction test
`passed_count >= active_count - 1 || passed_count >= active_count` is on
`usize`; with `active_count = 0` the second disjunct fires, which the
truncated `Nat` subtraction in the first disjunct reproduces.) -/
def pass_bid (g : GameState) (player_id : Uuid) : EngineResult :=
  let g :=
    { g with
      auction := g.auction.map (fun a =>
        if a.passed_players.contains player_id then a
        else { a with passed_players := a.passed_players ++ [player_id] }) }
  let active_count : Nat := g.active_player_count
  let passed_count : Nat := (g.auction.map (fun a => a.passed_players.length)).getD 0
  if passed_count ≥ active_count - 1 ∨ passed_count ≥ active_count then
    .ok (end_auction g)
  else .ok g

/-- `GameEngine::pay_jail`. -/
def pay_jail (g : GameState) : EngineResult :=
  match g.turn with
  | none => .error (.gameError "No active turn")
  | some turn =>
    match g.get_player turn.player_id with
    | none => .error (.gameError "Player not found")
    | some player =>
      if !player.in_jail then .error (.gameError "Not in jail")
      else if player.balance < 50 then .error (.gameError "Not enough money")
      else
        let g := g.updatePlayer turn.player_id
          (fun p => { p with balance := p.balance - 50, in_jail := false, jail_turns := 0 })
        let g := g.addLog (player.name ++ " paid 50 to get out of jail")
        .ok (setTurnPhase g .waitingForRoll)

/-- `GameState::next_player_id`. -/
def next_player_id (g : GameState) : Option Uuid :=
  let active := g.turn_order.filter
    (fun id => ((g.get_player id).map (fun p => !p.is_bankrupt)).getD false)
  if active.isEmpty then none
  else
    let current_idx :=
      (active.findIdx? (fun id => (g.turn.map (fun t => t.player_id == id)).getD false)).getD 0
    active.get? ((current_idx + 1) % active.length)

/-- `GameEngine::end_turn`. -/
def end_turn (g : GameState) : EngineResult :=
  let can_roll_again := (g.turn.map (fun t => t.can_roll_again)).getD false
  if can_roll_again then
    .ok
      { g with
        turn := g.turn.map (fun t =>
          { t with phase := .waitingForRoll, can_roll_again := false }) }
  else
    match next_player_id g with
    | none => .error (.gameError "No next player")
    | some next_id =>
      let g := { g with turn := some (TurnState.new next_id) }
      if g.active_player_count ≤ 1 then
        -- Rust `.unwrap()` on the winner lookup
        let winner_id := ((g.players.find? (fun p => !p.is_bankrupt)).map (fun p => p.id)).get!
        let winner_name := ((g.get_player winner_id).map (fun p => p.name)).getD ""
        let g := { g with phase := .gameOver }
        .ok (g.addLog (winner_name ++ " wins the game!"))
      else
        let next_name := ((g.get_player next_id).map (fun p => p.name)).getD ""
        .ok (g.addLog (next_name ++ " now plays"))

/-- `GameEngine::build_house`. -/
def build_house (g : GameState) (player_id : Uuid) (tile_idx : Nat) : EngineResult :=
  match get_tile tile_idx with
  | none => .error (.gameError "Invalid tile")
  | some tile =>
    if tile.tile_type ≠ .property then .error (.gameError "Cannot build on this tile")
    else
      match tile.group with
      | none => .error (.gameError "No color group")
      | some group =>
        if !player_has_full_set g player_id group then
          .error (.gameError "Must own full color set")
        else
          match g.get_player player_id with
          | none => .error (.gameError "Player not found")
          | some player =>
            if player.balance < (tile.build_cost : Int) then
              .error (.gameError "Not enough money")
            else
              let current_houses :=
                ((propGet g.properties tile_idx).map (fun p => p.houses)).getD 0
              if current_houses ≥ 5 then .error (.gameError "Already at max buildings")
              else
                let g := g.updatePlayer player_id
                  (fun p => { p with balance := p.balance - (tile.build_cost : Int) })
                let g := g.updateProp tile_idx (fun pr => { pr with houses := pr.houses + 1 })
                .ok (g.addLog (player.name ++ " built on " ++ tile.name))

/-- `GameEngine::mortgage_property`. -/
def mortgage_property (g : GameState) (player_id : Uuid) (tile_idx : Nat) :
    EngineResult :=
  match get_tile tile_idx with
  | none => .error (.gameError "Invalid tile")
  | some tile =>
    match propGet g.properties tile_idx with
    | none => .error (.gameError "Not a property")
    | some prop_state =>
      if prop_state.owner ≠ some player_id then
        .error (.gameError "You do not own this property")
      else if prop_state.is_mortgaged then .error (.gameError "Already mortgaged")
      else if prop_state.houses > 0 then .error (.gameError "Must sell buildings first")
      else
        match g.get_player player_id with
        | none => .error (.gameError "Player not found")
        | some player =>
          let g := g.updatePlayer player_id
            (fun p => { p with balance := p.balance + (tile.mortgage_value : Int) })
          let g := g.updateProp tile_idx (fun pr => { pr with is_mortgaged := true })
          .ok (g.addLog (player.name ++ " mortgaged " ++ tile.name))

/-- The Rust expression `(tile.mortgage_value as f32 * 1.1) as i32` of
`GameEngine::unmortgage_property` (nonnegative, so the cast truncates). -/
def unmortgage_cost (mv : Nat) : Nat :=
  f32Trunc (f32Mul (f32OfNat mv) f32Lit1_1)

/-- `GameEngine::unmortgage_property`. -/
def unmortgage_property (g : GameState) (player_id : Uuid) (tile_idx : Nat) :
    EngineResult :=
  match get_tile tile_idx with
  | none => .error (.gameError "Invalid tile")
  | some tile =>
    match propGet g.properties tile_idx with
    | none => .error (.gameError "Not a property")
    | some prop_state =>
      if prop_state.owner ≠ some player_id then
        .error (.gameError "You do not own this property")
      else if !prop_state.is_mortgaged then .error (.gameError "Not mortgaged")
      else
        let cost : Int := unmortgage_cost tile.mortgage_value
        match g.get_player player_id with
        | none => .error (.gameError "Player not found")
        | some player =>
          if player.balance < cost then .error (.gameError "Not enough money")
          else
            let g := g.updatePlayer player_id
              (fun p => { p with balance := p.balance - cost })
            let g := g.updateProp tile_idx (fun pr => { pr with is_mortgaged := false })
            .ok (g.addLog (player.name ++ " unmortgaged " ++ tile.name))

/-! ## Event dispatch (`engine.rs::handle_event`, `events.rs::ClientEvent`) -/

/-- `events.rs::ClientEvent`. -/
inductive ClientEvent where
  | rollDice
  | buyProperty
  | passProperty
  | endTurn
  | bid (amount : Nat)
  | passBid
  | payJail
  | useCard
  | build (tile_idx : Nat)
  | sellBuilding (tile_idx : Nat)
  | mortgage (tile_idx : Nat)
  | unmortgage (tile_idx : Nat)
  | tradeOffer (offer : TradeOffer)
  | tradeAccept (trade_id : Uuid)
  | tradeReject (trade_id : Uuid)
  | tradeCounter (trade_id : Uuid) (offer : TradeOffer)
  | chat (message : String)

/-- `GameEngine::handle_event` on an already-loaded room state.  `d1 d2`
are the dice the RNG would draw for a `RollDice` event.  `Chat` only
broadcasts and the unhandled events only log a warning: the state is
returned unchanged. -/
def handle_event (g : GameState) (player_id : Uuid) (event : ClientEvent)
    (d1 d2 : Nat) : EngineResult :=
  let is_current_player := (g.turn.map (fun t => t.player_id == player_id)).getD false
  match event with
  | .rollDice =>
    if !is_current_player then .error (.forbidden "Not your turn") else roll_dice g d1 d2
  | .buyProperty =>
    if !is_current_player then .error (.forbidden "Not your turn") else buy_property g
  | .passProperty =>
    if !is_current_player then .error (.forbidden "Not your turn") else start_auction g
  | .endTurn =>
    if !is_current_player then .error (.forbidden "Not your turn") else end_turn g
  | .bid amount => place_bid g player_id amount
  | .passBid => pass_bid g player_id
  | .payJail =>
    if !is_current_player then .error (.forbidden "Not your turn") else pay_jail g
  | .build tile_idx => build_house g player_id tile_idx
  | .mortgage tile_idx => mortgage_property g player_id tile_idx
  | .unmortgage tile_idx => unmortgage_property g player_id tile_idx
  | .chat _ => .ok g
  | _ => .ok g

/-! ## Bot decision module (`bot/decision.rs`) -/

/-- `BotAI::get_priorities` as (group, priority) pairs. -/
def get_priorities : List (ColorGroup × Nat) :=
  [(.orange, 5), (.red, 5), (.yellow, 4), (.railroad, 4), (.green, 3),
    (.pink, 3), (.lightBlue, 2), (.darkBlue, 2), (.brown, 2), (.utility, 1)]

/-- The `owned_in_group` counting loop of `bot/decision.rs`: number of
property entries owned by `pid` whose tile belongs to `group`. -/
def ownedInGroup (g : GameState) (pid : Uuid) (group : ColorGroup) : Nat :=
  (g.properties.filter (fun kv =>
    kv.2.owner == some pid && ((get_tile kv.1).bind (fun t => t.group) == some group))).length

/-- The priority lookup of `bot/decision.rs` (`.find(...).map(...).unwrap_or(1)`). -/
def priorityOf (group : ColorGroup) : Nat :=
  ((get_priorities.find? (fun pr => pr.1 == group)).map (fun pr => pr.2)).getD 1

/-- The `f32` valuation chain of `BotAI::calculate_max_bid`:
`value = price; if complete {value *= 1.8}; if blocks {value *= 1.5};
value *= 1.0 + priority as f32 * 0.1; value as u32`. -/
def maxBidChain (price priority : Nat) (complete blocks : Bool) : Nat :=
  let v0 : Nat × Nat := f32OfNat price
  let v1 := if complete then f32Mul v0 f32Lit1_8 else v0
  let v2 := if blocks then f32Mul v1 f32Lit1_5 else v1
  let fac := f32Add (f32OfNat 1) (f32Mul (f32OfNat priority) f32Lit0_1)
  f32Trunc (f32Mul v2 fac)

/-- `BotAI::calculate_max_bid` with its `f32` arithmetic modelled exactly. -/
def calculate_max_bid (g : GameState) (bot_id : Uuid) (tile_idx : Nat) : Nat :=
  match g.get_player bot_id with
  | none => 0
  | some bot =>
    match get_tile tile_idx with
    | none => 0
    | some tile =>
      match tile.group with
      | none => 0
      | some group =>
        let priority := priorityOf group
        let owned_in_group := ownedInGroup g bot_id group
        let group_size := group.property_count
        let would_complete_set := decide (owned_in_group ≥ group_size - 1)
        let blocks_opponent :=
          (g.players.filter (fun p => p.id != bot_id && !p.is_bankrupt)).any
            (fun p => ownedInGroup g p.id group ≥ group_size - 1)
        let value := maxBidChain tile.price priority would_complete_set blocks_opponent
        -- `(bot.balance as f32 * 0.5) as u32`; the cast saturates negatives to 0
        let max_spend :=
          if bot.balance < 0 then 0
          else f32Trunc (f32Mul (f32OfNat bot.balance.toNat) f32Lit0_5)
        min value max_spend

/-- `state.rs::is_ownable_tile`. -/
def is_ownable_tile (idx : Nat) : Bool :=
  !([0, 2, 4, 7, 10, 17, 20, 22, 30, 33, 36, 38].contains idx)

/-- The indices of the tiles of a color group on the board. -/
def group_tile_indices (group : ColorGroup) : List Nat :=
  (board.filter (fun t => t.group == some group)).map (fun t => t.index)

/-! ## Claim-side reference definitions

These follow the words of the specification claims (not the source) and are
compared with the source-derived functions in the claim theorems. -/

/-- Whether `pid` owns the tile at `idx` (claim-side helper). -/
def ownsTile (g : GameState) (pid : Uuid) (idx : Nat) : Bool :=
  ((propGet g.properties idx).map (fun p => p.owner == some pid)).getD false

/-- The rent reference definition of claim C5, parameterised by the dice sum
it plugs into the utility case:
* Property with 0 houses: `rent_base`, doubled exactly when the owner owns
  every tile of the color group and `double_rent_on_full_set` is true;
* Property with n > 0 houses: `rent_schedule[n-1]`;
* Railroad: `rent_schedule[k-1]` for `k` the owner's railroad count, with
  the sequence 25, 50, 100, 200;
* Utility: `dice_sum × 10` when the owner holds both utilities (tiles 12 and
  28), else `dice_sum × 4`. -/
def claimRentWithDice (g : GameState) (tile_idx : Nat) (dice_sum : Nat) : Nat :=
  match get_tile tile_idx with
  | none => 0
  | some tile =>
    match propGet g.properties tile_idx with
    | none => 0
    | some prop_state =>
      match prop_state.owner with
      | none => 0
      | some owner_id =>
        if prop_state.is_mortgaged then 0
        else
          match tile.tile_type with
          | .property =>
            if prop_state.houses > 0 then
              (tile.rent_schedule.get? (prop_state.houses - 1)).getD 0
            else
              match tile.group with
              | none => 0
              | some group =>
                if player_has_full_set g owner_id group && g.config.double_rent_on_full_set
                then tile.rent_base * 2
                else tile.rent_base
          | .railroad =>
            (([25, 50, 100, 200] : List Nat).get?
              (ownedCountOfType g owner_id .railroad - 1)).getD 0
          | .utility =>
            dice_sum * (if ownsTile g owner_id 12 && ownsTile g owner_id 28 then 10 else 4)
          | _ => 0

/-- Claim C5's rent reference exactly as worded: "using the current turn's
dice sum and the default sum 7 when no dice are recorded". -/
def claimRent (g : GameState) (tile_idx : Nat) : Nat :=
  claimRentWithDice g tile_idx
    (((g.turn.bind (fun t => t.dice)).map (fun d => d.1 + d.2)).getD 7)

/-- The amended dice default, as the code implements it: the default 7
applies only when there is no active turn; an active turn with no recorded
dice contributes `dice_sum = 0`. -/
def claimRentAmended (g : GameState) (tile_idx : Nat) : Nat :=
  claimRentWithDice g tile_idx ((g.turn.map (fun t => t.dice_sum)).getD 7)

/-- The priority table as worded in claim C9. -/
def claimPriority : ColorGroup → Nat
  | .orange => 5
  | .red => 5
  | .yellow => 4
  | .railroad => 4
  | .green => 3
  | .pink => 3
  | .lightBlue => 2
  | .darkBlue => 2
  | .brown => 2
  | .utility => 1

/-! ## Concrete fixtures for counterexamples and witnesses -/

/-- Seat-0 player, on tile 1, balance 500. -/
def playerA : Player :=
  ⟨0, "A", "#FF5733", 1, 500, false, 0, 0, false, false, true⟩

/-- Seat-1 player, on tile 3, balance 500. -/
def playerB : Player :=
  ⟨1, "B", "#33FF57", 3, 500, false, 0, 0, false, false, false⟩

/-- C1: player A must decide on tile 1, which player B already owns. -/
def stateC1 : GameState :=
  ⟨"room01", .playing, some ⟨0, none, 0, .buyDecision, false⟩, [0, 1], 0,
    [playerA, playerB], [(1, ⟨some 1, 0, false⟩), (3, ⟨none, 0, false⟩)],
    none, none, 0, GameConfig.default, []⟩

/-- C2: player A owns both Brown tiles (1 and 3); tile 3 is mortgaged. -/
def stateC2 : GameState :=
  ⟨"room02", .playing, some ⟨0, none, 0, .turnEnd, false⟩, [0, 1], 0,
    [playerA, playerB], [(1, ⟨some 0, 0, false⟩), (3, ⟨some 0, 0, true⟩)],
    none, none, 0, GameConfig.default, []⟩

/-- C3: an auction on tile 6 with current bid 10 by B; A has already passed. -/
def stateC3 : GameState :=
  ⟨"room03", .playing, some ⟨1, none, 0, .auction, false⟩, [0, 1], 0,
    [playerA, playerB], [(6, ⟨none, 0, false⟩)],
    some ⟨6, 10, some 1, [0]⟩, none, 0, GameConfig.default, []⟩

/-- C4 witness: an auction on tile 6, highest bid 50 by B, nobody passed
yet; A's pass leaves one non-passed player, ending the auction. -/
def stateC4 : GameState :=
  ⟨"room04", .playing, some ⟨0, none, 0, .auction, false⟩, [0, 1], 0,
    [playerA, playerB], [(6, ⟨none, 0, false⟩)],
    some ⟨6, 50, some 1, []⟩, none, 0, GameConfig.default, []⟩

/-- C5: utility 12 owned by A; the active turn has no recorded dice. -/
def stateC5 : GameState :=
  ⟨"room05", .playing, some ⟨1, none, 0, .moving, false⟩, [0, 1], 0,
    [playerA, playerB], [(12, ⟨some 0, 0, false⟩)],
    none, none, 0, GameConfig.default, []⟩

/-- C6 witness: player A is about to roll with two consecutive doubles
already counted. -/
def stateC6 : GameState :=
  ⟨"room06", .playing, some ⟨0, none, 2, .waitingForRoll, false⟩, [0, 1], 0,
    [playerA, playerB], [(1, ⟨none, 0, false⟩), (3, ⟨none, 0, false⟩)],
    none, none, 0, GameConfig.default, []⟩

/-- C7: player at position 35, about to move by 5 and land exactly on Go. -/
def stateC7 : GameState :=
  ⟨"room07", .playing, some ⟨0, some (2, 3), 0, .moving, false⟩, [0, 1], 0,
    [⟨0, "A", "#FF5733", 35, 500, false, 0, 0, false, false, true⟩, playerB],
    [(1, ⟨none, 0, false⟩)], none, none, 0, GameConfig.default, []⟩

/-- C9 witness: bot A owns Light Blue tiles 8 and 9 and bids on unowned
tile 6, which would complete the set; balance 1000. -/
def stateC9 : GameState :=
  ⟨"room09", .playing, some ⟨0, none, 0, .auction, false⟩, [0, 1], 0,
    [⟨0, "A", "#FF5733", 6, 1000, false, 0, 0, true, false, true⟩, playerB],
    [(6, ⟨none, 0, false⟩), (8, ⟨some 0, 0, false⟩), (9, ⟨some 0, 0, false⟩)],
    some ⟨6, 0, none, []⟩, none, 0, GameConfig.default, []⟩

/-- C10 witness: the game is over, it is B's turn, an auction is present —
yet A mortgages tile 1 successfully. -/
def stateC10 : GameState :=
  ⟨"room10", .gameOver, some ⟨1, none, 0, .turnEnd, false⟩, [0, 1], 0,
    [playerA, playerB], [(1, ⟨some 0, 0, false⟩), (6, ⟨none, 0, false⟩)],
    some ⟨6, 0, none, []⟩, none, 0, GameConfig.default, []⟩

/-! ## Structural lemmas about the state helpers -/

@[simp] theorem updatePlayer_turn (g : GameState) (pid : Uuid) (f : Player → Player) :
    (g.updatePlayer pid f).turn = g.turn := rfl

@[simp] theorem updatePlayer_properties (g : GameState) (pid : Uuid) (f : Player → Player) :
    (g.updatePlayer pid f).properties = g.properties := rfl

@[simp] theorem updatePlayer_auction (g : GameState) (pid : Uuid) (f : Player → Player) :
    (g.updatePlayer pid f).auction = g.auction := rfl

@[simp] theorem updatePlayer_phase (g : GameState) (pid : Uuid) (f : Player → Player) :
    (g.updatePlayer pid f).phase = g.phase := rfl

@[simp] theorem updatePlayer_pot (g : GameState) (pid : Uuid) (f : Player → Player) :
    (g.updatePlayer pid f).pot_money = g.pot_money := rfl

@[simp] theorem updatePlayer_config (g : GameState) (pid : Uuid) (f : Player → Player) :
    (g.updatePlayer pid f).config = g.config := rfl

@[simp] theorem addLog_players (g : GameState) (m : String) :
    (g.addLog m).players = g.players := rfl

@[simp] theorem addLog_turn (g : GameState) (m : String) :
    (g.addLog m).turn = g.turn := rfl

@[simp] theorem addLog_properties (g : GameState) (m : String) :
    (g.addLog m).properties = g.properties := rfl

@[simp] theorem addLog_auction (g : GameState) (m : String) :
    (g.addLog m).auction = g.auction := rfl

@[simp] theorem addLog_phase (g : GameState) (m : String) :
    (g.addLog m).phase = g.phase := rfl

@[simp] theorem addLog_pot (g : GameState) (m : String) :
    (g.addLog m).pot_money = g.pot_money := rfl

@[simp] theorem addLog_config (g : GameState) (m : String) :
    (g.addLog m).config = g.config := rfl

@[simp] theorem addLog_get_player (g : GameState) (m : String) (pid : Uuid) :
    (g.addLog m).get_player pid = g.get_player pid := rfl

@[simp] theorem updateProp_players (g : GameState) (k : Nat) (f : PropertyState → PropertyState) :
    (g.updateProp k f).players = g.players := rfl

@[simp] theorem updateProp_turn (g : GameState) (k : Nat) (f : PropertyState → PropertyState) :
    (g.updateProp k f).turn = g.turn := rfl

@[simp] theorem updateProp_auction (g : GameState) (k : Nat) (f : PropertyState → PropertyState) :
    (g.updateProp k f).auction = g.auction := rfl

@[simp] theorem updateProp_get_player (g : GameState) (k : Nat)
    (f : PropertyState → PropertyState) (pid : Uuid) :
    (g.updateProp k f).get_player pid = g.get_player pid := rfl

@[simp] theorem updateProp_properties (g : GameState) (k : Nat)
    (f : PropertyState → PropertyState) :
    (g.updateProp k f).properties = propUpdate g.properties k f := rfl

@[simp] theorem updateProp_pot (g : GameState) (k : Nat) (f : PropertyState → PropertyState) :
    (g.updateProp k f).pot_money = g.pot_money := rfl

@[simp] theorem setTurnPhase_players (g : GameState) (ph : TurnPhase) :
    (setTurnPhase g ph).players = g.players := rfl

@[simp] theorem setTurnPhase_properties (g : GameState) (ph : TurnPhase) :
    (setTurnPhase g ph).properties = g.properties := rfl

@[simp] theorem setTurnPhase_auction (g : GameState) (ph : TurnPhase) :
    (setTurnPhase g ph).auction = g.auction := rfl

@[simp] theorem setTurnPhase_turn (g : GameState) (ph : TurnPhase) :
    (setTurnPhase g ph).turn = g.turn.map (fun t => { t with phase := ph }) := rfl

@[simp] theorem setTurnPhase_get_player (g : GameState) (ph : TurnPhase) (pid : Uuid) :
    (setTurnPhase g ph).get_player pid = g.get_player pid := rfl

@[simp] theorem setTurnPhase_pot (g : GameState) (ph : TurnPhase) :
    (setTurnPhase g ph).pot_money = g.pot_money := rfl

/-- `find?` through `updateFirst` at a matching predicate, when `f`
preserves the predicate. -/
theorem find?_updateFirst {α : Type} (p : α → Bool) (f : α → α) (l : List α)
    (hf : ∀ a, p a = true → p (f a) = true) :
    (updateFirst p f l).find? p = (l.find? p).map f := by
  induction l with
  | nil => rfl
  | cons a t ih =>
    by_cases h : p a = true
    · simp [updateFirst, h, hf a h, List.find?_cons_of_pos]
    · have h' : p a = false := by simpa using h
      simp [updateFirst, h', List.find?_cons_of_neg, ih]

/-- `get_player` after `updatePlayer`, provided the update preserves the id. -/
theorem get_player_updatePlayer (g : GameState) (pid pid' : Uuid) (f : Player → Player)
    (hid : ∀ pl, (f pl).id = pl.id) :
    (g.updatePlayer pid f).get_player pid' =
      if pid' = pid then (g.get_player pid').map f else g.get_player pid' := by
  unfold GameState.updatePlayer GameState.get_player
  by_cases h : pid' = pid
  · subst h
    simp only [if_pos rfl]
    exact find?_updateFirst _ f g.players (fun a ha => by simpa [hid a] using ha)
  · simp only [if_neg h]
    induction g.players with
    | nil => rfl
    | cons a t ih =>
      by_cases hm : a.id = pid
      · have h1 : (a.id == pid) = true := by simpa using hm
        have h2 : (a.id == pid') = false := by
          simp only [hm, beq_eq_false_iff_ne, ne_eq]
          exact fun hh => h hh.symm
        have h3 : ((f a).id == pid') = false := by
          simp only [hid a, hm, beq_eq_false_iff_ne, ne_eq]
          exact fun hh => h hh.symm
        simp [updateFirst, h1, List.find?_cons_of_neg, h2, h3]
      · have h1 : (a.id == pid) = false := by simpa using hm
        by_cases hm' : a.id = pid'
        · have h2 : (a.id == pid') = true := by simpa using hm'
          simp [updateFirst, h1, List.find?_cons_of_pos, h2]
        · have h2 : (a.id == pid') = false := by simpa using hm'
          simp [updateFirst, h1, List.find?_cons_of_neg, h2, ih]

/-- `propGet` after `propUpdate`. -/
theorem propGet_propUpdate (props : List (Nat × PropertyState)) (k k' : Nat)
    (f : PropertyState → PropertyState) :
    propGet (propUpdate props k f) k' =
      if k' = k then (propGet props k').map f else propGet props k' := by
  by_cases h : k' = k
  · subst h
    rw [if_pos rfl]
    simp only [propGet, propUpdate]
    rw [find?_updateFirst (fun kv => kv.1 == k') (fun kv => (kv.1, f kv.2)) props
      (fun a ha => ha)]
    cases props.find? (fun kv => kv.1 == k') <;> rfl
  · simp only [if_neg h, propGet, propUpdate]
    congr 1
    induction props with
    | nil => rfl
    | cons a t ih =>
      by_cases hm : a.1 = k
      · have h1 : (a.1 == k) = true := by simpa using hm
        have h2 : (a.1 == k') = false := by
          simp only [beq_eq_false_iff_ne, ne_eq]
          omega
        simp [updateFirst, h1, List.find?_cons_of_neg, h2]
      · have h1 : (a.1 == k) = false := by simpa using hm
        by_cases hm' : a.1 = k'
        · have h2 : (a.1 == k') = true := by simpa using hm'
          simp [updateFirst, h1, List.find?_cons_of_pos, h2]
        · have h2 : (a.1 == k') = false := by simpa using hm'
          simp [updateFirst, h1, List.find?_cons_of_neg, h2, ih]

/-- An entry found by `propGet` is a member (with the queried key). -/
theorem mem_of_propGet (props : List (Nat × PropertyState)) (k : Nat) (v : PropertyState)
    (h : propGet props k = some v) : (k, v) ∈ props := by
  unfold propGet at h
  cases hf : props.find? (fun kv => kv.1 == k) with
  | none => simp [hf] at h
  | some e =>
    rw [hf] at h
    obtain ⟨e1, e2⟩ := e
    have hmem := List.mem_of_find?_eq_some hf
    have hkey := List.find?_some hf
    simp only [beq_iff_eq] at hkey
    simp only [Option.map_some'] at h
    injection h with h2
    subst hkey
    subst h2
    exact hmem

/-- With `Nodup` keys (the Rust `HashMap` invariant), membership determines
the `propGet` result. -/
theorem propGet_of_mem_nodup (props : List (Nat × PropertyState)) (k : Nat)
    (v : PropertyState) (hnd : (props.map Prod.fst).Nodup)
    (hmem : (k, v) ∈ props) : propGet props k = some v := by
  induction props with
  | nil => simp at hmem
  | cons a t ih =>
    simp only [List.map_cons, List.nodup_cons] at hnd
    rcases List.mem_cons.mp hmem with h | h
    · subst h
      simp [propGet, List.find?_cons_of_pos]
    · have hk : a.1 ≠ k := by
        intro hak
        exact hnd.1 (hak ▸ (List.mem_map.mpr ⟨(k, v), h, rfl⟩))
      have : (a.1 == k) = false := by simpa using hk
      simpa [propGet, List.find?_cons_of_neg, this] using ih hnd.2 h

/-! ## Counting lemmas for the ownership loops -/

/-- A `Nodup` list contained in another `Nodup` list is no longer. -/
theorem length_le_of_nodup_subset {l m : List Nat} (hl : l.Nodup)
    (hsub : ∀ x ∈ l, x ∈ m) : l.length ≤ m.length := by
  have h1 : l.toFinset ⊆ m.toFinset := by
    intro x hx
    exact List.mem_toFinset.mpr (hsub x (List.mem_toFinset.mp hx))
  calc l.length = l.toFinset.card := (List.toFinset_card_of_nodup hl).symm
    _ ≤ m.toFinset.card := Finset.card_le_card h1
    _ ≤ m.length := m.toFinset_card_le

/-- The filtered entry count is bounded by the size of any `Nodup` key list
covering the filter predicate, when the map keys are `Nodup`. -/
theorem filter_length_le_keys (props : List (Nat × PropertyState))
    (pred : Nat × PropertyState → Bool) (K : List Nat)
    (hnd : (props.map Prod.fst).Nodup)
    (hsub : ∀ kv, pred kv = true → kv.1 ∈ K) :
    (props.filter pred).length ≤ K.length := by
  have hsl : List.Sublist ((props.filter pred).map Prod.fst) (props.map Prod.fst) :=
    (List.filter_sublist props).map Prod.fst
  have h1 : ((props.filter pred).map Prod.fst).Nodup := hnd.sublist hsl
  have h2 : ∀ x ∈ (props.filter pred).map Prod.fst, x ∈ K := by
    intro x hx
    obtain ⟨kv, hkv, rfl⟩ := List.mem_map.mp hx
    exact hsub kv (List.of_mem_filter hkv)
  calc (props.filter pred).length = ((props.filter pred).map Prod.fst).length :=
        (List.length_map _ _).symm
    _ ≤ K.length := length_le_of_nodup_subset h1 h2

/-- Refinement of `filter_length_le_keys`: when one covering key is known to
fail the predicate on every entry, the count drops below the key count. -/
theorem filter_length_le_keys_sub (props : List (Nat × PropertyState))
    (pred : Nat × PropertyState → Bool) (K : List Nat) (k0 : Nat)
    (hnd : (props.map Prod.fst).Nodup) (hk0 : k0 ∈ K)
    (hsub : ∀ kv, pred kv = true → kv.1 ∈ K)
    (hfail : ∀ v, (k0, v) ∈ props → pred (k0, v) = false) :
    (props.filter pred).length ≤ K.length - 1 := by
  have hsl : List.Sublist ((props.filter pred).map Prod.fst) (props.map Prod.fst) :=
    (List.filter_sublist props).map Prod.fst
  have h1 : ((props.filter pred).map Prod.fst).Nodup := hnd.sublist hsl
  have h2 : ∀ x ∈ (props.filter pred).map Prod.fst, x ∈ K.erase k0 := by
    intro x hx
    obtain ⟨kv, hkv, rfl⟩ := List.mem_map.mp hx
    have hpred := List.of_mem_filter hkv
    have hxK := hsub kv hpred
    have hxne : kv.1 ≠ k0 := by
      intro he
      have hmem : (k0, kv.2) ∈ props := by
        have := List.mem_of_mem_filter hkv
        rwa [show kv = (k0, kv.2) by rw [← he]] at this
      have := hfail kv.2 hmem
      rw [show (k0, kv.2) = kv by rw [← he]] at this
      rw [hpred] at this
      exact Bool.noConfusion this
    exact (List.mem_erase_of_ne hxne).mpr hxK
  have hlen : (K.erase k0).length = K.length - 1 := List.length_erase_of_mem hk0
  calc (props.filter pred).length = ((props.filter pred).map Prod.fst).length :=
        (List.length_map _ _).symm
    _ ≤ (K.erase k0).length :=
        length_le_of_nodup_subset h1 h2
    _ = K.length - 1 := hlen

/-- One matching member makes the filtered count positive. -/
theorem one_le_filter_length (props : List (Nat × PropertyState))
    (pred : Nat × PropertyState → Bool) (kv : Nat × PropertyState)
    (hmem : kv ∈ props) (hpred : pred kv = true) :
    1 ≤ (props.filter pred).length :=
  List.length_pos.mpr (List.ne_nil_of_mem (List.mem_filter.mpr ⟨hmem, hpred⟩))

/-- Two matching members with distinct keys make the filtered count at
least two. -/
theorem two_le_filter_length (props : List (Nat × PropertyState))
    (pred : Nat × PropertyState → Bool) (k1 k2 : Nat) (v1 v2 : PropertyState)
    (h1 : (k1, v1) ∈ props) (h2 : (k2, v2) ∈ props)
    (hp1 : pred (k1, v1) = true) (hp2 : pred (k2, v2) = true) (hne : k1 ≠ k2) :
    2 ≤ (props.filter pred).length := by
  have hm1 : k1 ∈ (props.filter pred).map Prod.fst :=
    List.mem_map.mpr ⟨(k1, v1), List.mem_filter.mpr ⟨h1, hp1⟩, rfl⟩
  have hm2 : k2 ∈ (props.filter pred).map Prod.fst :=
    List.mem_map.mpr ⟨(k2, v2), List.mem_filter.mpr ⟨h2, hp2⟩, rfl⟩
  have hfin : ({k1, k2} : Finset Nat) ⊆ ((props.filter pred).map Prod.fst).toFinset := by
    intro x hx
    rcases Finset.mem_insert.mp hx with rfl | hx
    · exact List.mem_toFinset.mpr hm1
    · exact List.mem_toFinset.mpr (Finset.mem_singleton.mp hx ▸ hm2)
  have hcard : ({k1, k2} : Finset Nat).card = 2 := Finset.card_pair hne
  calc 2 = ({k1, k2} : Finset Nat).card := hcard.symm
    _ ≤ ((props.filter pred).map Prod.fst).toFinset.card := Finset.card_le_card hfin
    _ ≤ ((props.filter pred).map Prod.fst).length := List.toFinset_card_le _
    _ = (props.filter pred).length := List.length_map _ _

/-! ## Board facts (decidable, checked over the literal catalog) -/

theorem board_length : board.length = 40 := rfl

theorem get_tile_eq_none (n : Nat) (h : 40 ≤ n) : get_tile n = none := by
  unfold get_tile
  exact List.get?_eq_none.mpr (le_trans (le_of_eq board_length) h)

theorem railroad_idx_mem (n : Nat)
    (h : ((get_tile n).map (fun t => t.tile_type == TileType.railroad)).getD false = true) :
    n ∈ ([5, 15, 25, 35] : List Nat) := by
  by_cases hn : n < 40
  · have hall : ∀ m, m < 40 →
        ((get_tile m).map (fun t => t.tile_type == TileType.railroad)).getD false = true →
          m ∈ ([5, 15, 25, 35] : List Nat) := by decide
    exact hall n hn h
  · rw [get_tile_eq_none n (le_of_not_lt hn)] at h
    simp at h

theorem utility_idx_mem (n : Nat)
    (h : ((get_tile n).map (fun t => t.tile_type == TileType.utility)).getD false = true) :
    n ∈ ([12, 28] : List Nat) := by
  by_cases hn : n < 40
  · have hall : ∀ m, m < 40 →
        ((get_tile m).map (fun t => t.tile_type == TileType.utility)).getD false = true →
          m ∈ ([12, 28] : List Nat) := by decide
    exact hall n hn h
  · rw [get_tile_eq_none n (le_of_not_lt hn)] at h
    simp at h

theorem group_idx_mem (group : ColorGroup) (n : Nat)
    (h : ((get_tile n).bind (fun t => t.group) == some group) = true) :
    n ∈ group_tile_indices group := by
  by_cases hn : n < 40
  · have hall : ∀ g : ColorGroup, ∀ m, m < 40 →
        ((get_tile m).bind (fun t => t.group) == some g) = true →
          m ∈ group_tile_indices g := by decide
    exact hall group n hn h
  · rw [get_tile_eq_none n (le_of_not_lt hn)] at h
    simp at h

theorem group_tile_indices_nodup (group : ColorGroup) :
    (group_tile_indices group).Nodup := by
  have : ∀ g : ColorGroup, (group_tile_indices g).Nodup := by decide
  exact this group

theorem group_tile_indices_length (group : ColorGroup) :
    (group_tile_indices group).length = group.property_count := by
  have : ∀ g : ColorGroup, (group_tile_indices g).length = g.property_count := by decide
  exact this group

theorem board_property_facts (t : Tile) (ht : t ∈ board)
    (hp : t.tile_type = TileType.property) :
    t.group.isSome = true ∧ t.rent_schedule.length = 5 := by
  have : ∀ u ∈ board, u.tile_type = TileType.property →
      u.group.isSome = true ∧ u.rent_schedule.length = 5 := by decide
  exact this t ht hp

theorem board_railroad_schedule (t : Tile) (ht : t ∈ board)
    (hp : t.tile_type = TileType.railroad) :
    t.rent_schedule = [25, 50, 100, 200] := by
  have : ∀ u ∈ board, u.tile_type = TileType.railroad →
      u.rent_schedule = [25, 50, 100, 200] := by decide
  exact this t ht hp

theorem get_tile_mem (n : Nat) (t : Tile) (h : get_tile n = some t) : t ∈ board :=
  List.get?_mem h

/-! ## Rounding lemmas for the `f32` model -/

theorem f32Shift_le (num m k : Nat) (hm : num = m * 2 ^ k) (hlt : m < 2 ^ 24) :
    f32Shift num ≤ k := by
  unfold f32Shift
  have hsub : ∀ x ∈ (List.range 131).filter (fun i => 2 ^ (24 + i) ≤ num), x < k := by
    intro x hx
    have hcond := List.of_mem_filter hx
    simp only [decide_eq_true_eq] at hcond
    by_contra hxk
    push_neg at hxk
    have h1 : num < 2 ^ (24 + k) := by
      rw [hm, pow_add]
      exact (Nat.mul_lt_mul_right (Nat.pos_pow_of_pos k (by norm_num))).mpr hlt
    have h2 : 2 ^ (24 + k) ≤ 2 ^ (24 + x) :=
      Nat.pow_le_pow_right (by norm_num) (by omega)
    omega
  have hnd : ((List.range 131).filter (fun i => 2 ^ (24 + i) ≤ num)).Nodup :=
    (List.nodup_range 131).filter _
  have := length_le_of_nodup_subset hnd
    (fun x hx => List.mem_range.mpr (hsub x hx))
  simpa using this

theorem f32Round_eq_self (num exp m k : Nat) (hm : num = m * 2 ^ k)
    (hlt : m < 2 ^ 24) : f32Round num exp = (num, exp) := by
  unfold f32Round
  by_cases h : num < 2 ^ 24
  · rw [if_pos h]
  · rw [if_neg h]
    have hsk : f32Shift num ≤ k := f32Shift_le num m k hm hlt
    have hdvd : 2 ^ f32Shift num ∣ num := by
      nth_rewrite 2 [hm]
      exact dvd_mul_of_dvd_right (pow_dvd_pow 2 hsk) m
    have hq : rdivPow2 num (f32Shift num) * 2 ^ f32Shift num = num := by
      have hr : num % 2 ^ f32Shift num = 0 := Nat.mod_eq_zero_of_dvd hdvd
      by_cases hs : f32Shift num = 0
      · simp [rdivPow2, hs]
      · simp only [rdivPow2, if_neg hs, hr]
        rw [if_neg (Nat.not_lt_zero _), if_pos (Nat.pos_pow_of_pos _ (by norm_num))]
        exact Nat.div_mul_cancel hdvd
    simp [hq]

/-! ## Operation-level helper lemmas -/

/-- Successful `buy_property`: only the turn phase and the balance are
checked; the owner field is overwritten unconditionally. -/
theorem buy_property_ok (g : GameState) (t : TurnState) (pl : Player) (tile : Tile)
    (hturn : g.turn = some t) (hphase : t.phase = .buyDecision)
    (hpl : g.get_player t.player_id = some pl)
    (htile : get_tile pl.position = some tile)
    (hbal : (tile.price : Int) ≤ pl.balance) :
    ∃ g', buy_property g = Except.ok g' ∧
      (g'.get_player t.player_id).map Player.balance = some (pl.balance - tile.price) ∧
      g'.properties =
        propUpdate g.properties pl.position (fun pr => { pr with owner := some t.player_id }) ∧
      g'.turn = some { t with phase := .turnEnd } := by
  unfold buy_property
  simp only [hturn]
  rw [if_neg (by simp [hphase])]
  simp only [hpl, Option.map_some', Option.getD_some, htile]
  rw [if_neg (not_lt.mpr hbal)]
  refine ⟨_, rfl, ?_, ?_, ?_⟩
  · simp only [setTurnPhase_get_player, addLog_get_player, updateProp_get_player]
    have hup := get_player_updatePlayer g t.player_id t.player_id
      (fun p => { p with balance := p.balance - (tile.price : Int) }) (fun p => rfl)
    rw [if_pos rfl, hpl] at hup
    rw [hup]
    rfl
  · simp only [setTurnPhase_properties, addLog_properties, updateProp_properties,
      updatePlayer_properties]
  · simp only [setTurnPhase_turn, addLog_turn, updateProp_turn, updatePlayer_turn, hturn,
      Option.map_some']

/-- Successful `build_house`: the mortgage state of the tile and of its
group is never consulted; `is_mortgaged` is carried over unchanged. -/
theorem build_house_ok (g : GameState) (pid : Uuid) (idx : Nat)
    (tile : Tile) (group : ColorGroup) (pl : Player) (ps : PropertyState)
    (htile : get_tile idx = some tile)
    (hprop : tile.tile_type = .property)
    (hgroup : tile.group = some group)
    (hfull : player_has_full_set g pid group = true)
    (hpl : g.get_player pid = some pl)
    (hbal : (tile.build_cost : Int) ≤ pl.balance)
    (hps : propGet g.properties idx = some ps)
    (hh : ps.houses < 5) :
    ∃ g', build_house g pid idx = Except.ok g' ∧
      (g'.get_player pid).map Player.balance = some (pl.balance - tile.build_cost) ∧
      propGet g'.properties idx = some { ps with houses := ps.houses + 1 } := by
  unfold build_house
  simp only [htile]
  rw [if_neg (by simp [hprop])]
  simp only [hgroup]
  rw [if_neg (by simp [hfull])]
  simp only [hpl]
  rw [if_neg (not_lt.mpr hbal)]
  simp only [hps, Option.map_some', Option.getD_some]
  rw [if_neg (not_le.mpr hh)]
  refine ⟨_, rfl, ?_, ?_⟩
  · simp only [addLog_get_player, updateProp_get_player]
    have hup := get_player_updatePlayer g pid pid
      (fun p => { p with balance := p.balance - (tile.build_cost : Int) }) (fun p => rfl)
    rw [if_pos rfl, hpl] at hup
    rw [hup]
    rfl
  · simp only [addLog_properties, updateProp_properties, updatePlayer_properties]
    rw [propGet_propUpdate, if_pos rfl, hps]
    rfl

/-- Successful `mortgage_property`: no phase or turn-ownership condition
appears among the hypotheses because the operation checks none. -/
theorem mortgage_property_ok (g : GameState) (pid : Uuid) (idx : Nat)
    (tile : Tile) (pl : Player) (ps : PropertyState)
    (htile : get_tile idx = some tile)
    (hps : propGet g.properties idx = some ps)
    (howner : ps.owner = some pid)
    (hm : ps.is_mortgaged = false)
    (hh : ps.houses = 0)
    (hpl : g.get_player pid = some pl) :
    ∃ g', mortgage_property g pid idx = Except.ok g' ∧
      (g'.get_player pid).map Player.balance = some (pl.balance + tile.mortgage_value) ∧
      propGet g'.properties idx = some { ps with is_mortgaged := true } := by
  unfold mortgage_property
  simp only [htile, hps]
  rw [if_neg (by simp [howner])]
  rw [if_neg (by simp [hm])]
  rw [if_neg (by simp [hh])]
  simp only [hpl]
  refine ⟨_, rfl, ?_, ?_⟩
  · simp only [addLog_get_player, updateProp_get_player]
    have hup := get_player_updatePlayer g pid pid
      (fun p => { p with balance := p.balance + (tile.mortgage_value : Int) }) (fun p => rfl)
    rw [if_pos rfl, hpl] at hup
    rw [hup]
    rfl
  · simp only [addLog_properties, updateProp_properties, updatePlayer_properties]
    rw [propGet_propUpdate, if_pos rfl, hps]
    rfl

theorem toI32_of_lt (n : Nat) (h : n < 2 ^ 31) : toI32 n = (n : Int) := by
  unfold toI32
  rw [if_pos h]

@[simp] theorem setAuction_get_player (g : GameState) (a : Option AuctionState) (pid : Uuid) :
    ({ g with auction := a } : GameState).get_player pid = g.get_player pid := rfl

@[simp] theorem setAuction_players (g : GameState) (a : Option AuctionState) :
    ({ g with auction := a } : GameState).players = g.players := rfl

@[simp] theorem setAuction_properties (g : GameState) (a : Option AuctionState) :
    ({ g with auction := a } : GameState).properties = g.properties := rfl

@[simp] theorem setAuction_turn (g : GameState) (a : Option AuctionState) :
    ({ g with auction := a } : GameState).turn = g.turn := rfl

@[simp] theorem setAuction_active (g : GameState) (a : Option AuctionState) :
    ({ g with auction := a } : GameState).active_player_count = g.active_player_count := rfl

@[simp] theorem setTurn_get_player (g : GameState) (t : Option TurnState) (pid : Uuid) :
    ({ g with turn := t } : GameState).get_player pid = g.get_player pid := rfl

@[simp] theorem setTurn_properties (g : GameState) (t : Option TurnState) :
    ({ g with turn := t } : GameState).properties = g.properties := rfl

@[simp] theorem setTurn_players (g : GameState) (t : Option TurnState) :
    ({ g with turn := t } : GameState).players = g.players := rfl

@[simp] theorem updatePlayer_active (g : GameState) (pid : Uuid) (f : Player → Player) :
    (g.updatePlayer pid f).players.length = g.players.length := by
  simp only [GameState.updatePlayer]
  induction g.players with
  | nil => rfl
  | cons a t ih =>
    by_cases h : (a.id == pid) = true
    · simp [updateFirst, h]
    · simp only [updateFirst, Bool.not_eq_true] at h
      simp [updateFirst, h, ih]

/-- `unmortgage_property` under its own preconditions: the balance
threshold and the debit are both `unmortgage_cost`. -/
theorem unmortgage_property_spec (g : GameState) (pid : Uuid) (idx : Nat)
    (tile : Tile) (ps : PropertyState) (pl : Player)
    (htile : get_tile idx = some tile)
    (hps : propGet g.properties idx = some ps)
    (howner : ps.owner = some pid)
    (hm : ps.is_mortgaged = true)
    (hpl : g.get_player pid = some pl) :
    (pl.balance < (unmortgage_cost tile.mortgage_value : Int) →
      unmortgage_property g pid idx = Except.error (AppError.gameError "Not enough money")) ∧
    ((unmortgage_cost tile.mortgage_value : Int) ≤ pl.balance →
      ∃ g', unmortgage_property g pid idx = Except.ok g' ∧
        (g'.get_player pid).map Player.balance =
          some (pl.balance - (unmortgage_cost tile.mortgage_value : Int)) ∧
        propGet g'.properties idx = some { ps with is_mortgaged := false }) := by
  unfold unmortgage_property
  simp only [htile, hps]
  rw [if_neg (by simp [howner])]
  rw [if_neg (by simp [hm])]
  simp only [hpl]
  constructor
  · intro hlt
    rw [if_pos hlt]
  · intro hge
    rw [if_neg (not_lt.mpr hge)]
    refine ⟨_, rfl, ?_, ?_⟩
    · simp only [addLog_get_player, updateProp_get_player]
      have hup := get_player_updatePlayer g pid pid
        (fun p => { p with balance := p.balance - (unmortgage_cost tile.mortgage_value : Int) })
        (fun p => rfl)
      rw [if_pos rfl, hpl] at hup
      rw [hup]
      rfl
    · simp only [addLog_properties, updateProp_properties, updatePlayer_properties]
      rw [propGet_propUpdate, if_pos rfl, hps]
      rfl

/-- Full characterisation of `place_bid`: it consults only the (default-0)
balance and the (default-0) current bid — never `passed_players`, never the
existence of the auction. -/
theorem place_bid_spec (g : GameState) (pid : Uuid) (amount : Nat) :
    ((place_bid g pid amount).isOk = true ↔
      (toI32 amount ≤ ((g.get_player pid).map (fun p => p.balance)).getD 0 ∧
        (g.auction.map (fun a => a.current_bid)).getD 0 < amount)) ∧
    (∀ g', place_bid g pid amount = Except.ok g' →
      g'.players = g.players ∧ g'.properties = g.properties ∧ g'.turn = g.turn ∧
      g'.phase = g.phase ∧
      g'.auction = g.auction.map (fun a =>
        { a with current_bid := amount, highest_bidder := some pid })) ∧
    (g.auction = none → place_bid g pid amount = Except.ok g ∨
      (place_bid g pid amount).isOk = false) := by
  refine ⟨?_, ?_, ?_⟩
  · unfold place_bid
    by_cases h1 : ((g.get_player pid).map (fun p => p.balance)).getD 0 < toI32 amount
    · rw [if_pos h1]
      constructor
      · intro h
        simp [Except.isOk, Except.toBool] at h
      · intro ⟨ha, _⟩
        omega
    · rw [if_neg h1]
      by_cases h2 : amount ≤ (g.auction.map (fun a => a.current_bid)).getD 0
      · rw [if_pos h2]
        constructor
        · intro h
          simp [Except.isOk, Except.toBool] at h
        · intro ⟨_, hb⟩
          omega
      · rw [if_neg h2]
        constructor
        · intro _
          exact ⟨le_of_not_lt h1, lt_of_not_le h2⟩
        · intro _
          simp [Except.isOk, Except.toBool]
  · intro g' h
    unfold place_bid at h
    by_cases h1 : ((g.get_player pid).map (fun p => p.balance)).getD 0 < toI32 amount
    · rw [if_pos h1] at h
      exact absurd h (by simp)
    · rw [if_neg h1] at h
      by_cases h2 : amount ≤ (g.auction.map (fun a => a.current_bid)).getD 0
      · rw [if_pos h2] at h
        exact absurd h (by simp)
      · rw [if_neg h2] at h
        injection h with h
        subst h
        exact ⟨rfl, rfl, rfl, rfl, rfl⟩
  · intro hnone
    obtain ⟨gid, gph, gturn, gord, gidx, gpl, gpr, gauc, gtr, gpot, gcfg, glog⟩ := g
    simp only at hnone
    subst hnone
    unfold place_bid
    by_cases h1 : ((GameState.get_player ⟨gid, gph, gturn, gord, gidx, gpl, gpr, none,
        gtr, gpot, gcfg, glog⟩ pid).map (fun p => p.balance)).getD 0 < toI32 amount
    · rw [if_pos h1]
      right
      simp [Except.isOk, Except.toBool]
    · rw [if_neg h1]
      by_cases h2 : amount ≤ ((Option.map (fun a => a.current_bid)
          (none : Option AuctionState)).getD 0 : Nat)
      · rw [if_pos h2]
        right
        simp [Except.isOk, Except.toBool]
      · rw [if_neg h2]
        left
        rfl

/-- The movement step: `new_pos = (old + d) % 40`; $200 is credited exactly
when `new_pos < old_pos ∧ old_pos ≠ 0` — which `new_pos = 0` satisfies
whenever `old_pos ≠ 0`. -/
theorem moveStep_ok (g : GameState) (pid : Uuid) (pl : Player) (ds : Nat)
    (hpl : g.get_player pid = some pl) :
    (moveStep g pid ds).2.2.1 = (pl.position + ds) % 40 ∧
    ((moveStep g pid ds).1.get_player pid).map (fun p => p.position) =
      some ((pl.position + ds) % 40) ∧
    ((moveStep g pid ds).1.get_player pid).map (fun p => p.balance) =
      some (pl.balance +
        (if (pl.position + ds) % 40 < pl.position ∧ pl.position ≠ 0 then 200 else 0)) := by
  unfold moveStep
  simp only [hpl, Option.map_some', Option.getD_some]
  have hup1 := get_player_updatePlayer g pid pid
    (fun p => { p with position := (pl.position + ds) % 40 }) (fun p => rfl)
  rw [if_pos rfl, hpl] at hup1
  by_cases hc : (pl.position + ds) % 40 < pl.position ∧ pl.position ≠ 0
  · rw [if_pos hc]
    have hd : decide ((pl.position + ds) % 40 < pl.position ∧ pl.position ≠ 0) = true :=
      decide_eq_true hc
    rw [hd, if_pos rfl]
    have hup2 := get_player_updatePlayer
      (g.updatePlayer pid (fun p => { p with position := (pl.position + ds) % 40 }))
      pid pid (fun p => { p with balance := p.balance + 200 }) (fun p => rfl)
    rw [if_pos rfl, hup1] at hup2
    refine ⟨trivial, ?_, ?_⟩
    · simp only [addLog_get_player, hup2]
      rfl
    · simp only [addLog_get_player, hup2]
      rfl
  · rw [if_neg hc]
    have hd : decide ((pl.position + ds) % 40 < pl.position ∧ pl.position ≠ 0) = false :=
      decide_eq_false hc
    rw [hd]
    rw [show (if (false = true) then ((g.updatePlayer pid (fun p =>
        { p with position := (pl.position + ds) % 40 })).updatePlayer pid (fun p =>
        { p with balance := p.balance + 200 })).addLog
          ((((g.updatePlayer pid (fun p => { p with position := (pl.position + ds) % 40 })).get_player
            pid).map (fun p => p.name)).getD "" ++ " passed GO and collected 200")
      else g.updatePlayer pid (fun p => { p with position := (pl.position + ds) % 40 })) =
      g.updatePlayer pid (fun p => { p with position := (pl.position + ds) % 40 }) from by
        rw [if_neg (by simp)]]
    refine ⟨trivial, ?_, ?_⟩
    · rw [hup1]
      rfl
    · rw [hup1]
      simp

@[simp] theorem setTurn_pot (g : GameState) (t : Option TurnState) :
    ({ g with turn := t } : GameState).pot_money = g.pot_money := rfl

@[simp] theorem setAuction_pot (g : GameState) (a : Option AuctionState) :
    ({ g with auction := a } : GameState).pot_money = g.pot_money := rfl

/-- The railroad-count loop never exceeds 4 when the property keys are
`Nodup` (there are four railroad indices on the board). -/
theorem rr_count_le_four (g : GameState) (pid : Uuid)
    (hnd : (g.properties.map Prod.fst).Nodup) :
    ownedCountOfType g pid .railroad ≤ 4 := by
  unfold ownedCountOfType
  have h := filter_length_le_keys g.properties
    (fun kv => kv.2.owner == some pid &&
      ((get_tile kv.1).map (fun t => t.tile_type == TileType.railroad)).getD false)
    [5, 15, 25, 35] hnd ?_
  · simpa using h
  · intro kv hkv
    rw [Bool.and_eq_true] at hkv
    exact railroad_idx_mem kv.1 hkv.2

/-- The utility-count loop reaches 2 exactly when the owner holds both
utility tiles (12 and 28), under `Nodup` keys. -/
theorem util_count_two_iff (g : GameState) (pid : Uuid)
    (hnd : (g.properties.map Prod.fst).Nodup) :
    2 ≤ ownedCountOfType g pid .utility ↔
      (ownsTile g pid 12 = true ∧ ownsTile g pid 28 = true) := by
  unfold ownedCountOfType
  set pred := fun kv : Nat × PropertyState => kv.2.owner == some pid &&
    ((get_tile kv.1).map (fun t => t.tile_type == TileType.utility)).getD false with hpred
  constructor
  · intro hcnt
    set L := (g.properties.filter pred).map Prod.fst with hL
    have hLnd : L.Nodup := hnd.sublist ((List.filter_sublist g.properties).map Prod.fst)
    have hLsub : ∀ x ∈ L, x ∈ ([12, 28] : List Nat) := by
      intro x hx
      obtain ⟨kv, hkv, rfl⟩ := List.mem_map.mp hx
      have hp := List.of_mem_filter hkv
      rw [hpred, Bool.and_eq_true] at hp
      exact utility_idx_mem kv.1 hp.2
    have hLlen : 2 ≤ L.length := by
      rw [hL, List.length_map]
      exact hcnt
    have hsubF : L.toFinset ⊆ ({12, 28} : Finset Nat) := by
      intro x hx
      have := hLsub x (List.mem_toFinset.mp hx)
      simpa using this
    have hcard2 : ({12, 28} : Finset Nat).card = 2 := by decide
    have hcardL : L.toFinset.card = L.length := List.toFinset_card_of_nodup hLnd
    have heq : L.toFinset = ({12, 28} : Finset Nat) :=
      Finset.eq_of_subset_of_card_le hsubF (by omega)
    have hmem : ∀ k ∈ ([12, 28] : List Nat), ownsTile g pid k = true := by
      intro k hk
      have hkF : k ∈ L.toFinset := by
        rw [heq]
        simp only [List.mem_cons, List.not_mem_nil, or_false] at hk
        rcases hk with rfl | rfl <;> simp
      have hkL := List.mem_toFinset.mp hkF
      obtain ⟨kv, hkv, hfst⟩ := List.mem_map.mp hkL
      have hp := List.of_mem_filter hkv
      rw [hpred, Bool.and_eq_true] at hp
      have hmemp := List.mem_of_mem_filter hkv
      have hget : propGet g.properties k = some kv.2 := by
        apply propGet_of_mem_nodup _ _ _ hnd
        rwa [show (k, kv.2) = kv from by rw [← hfst]]
      unfold ownsTile
      rw [hget]
      simpa using hp.1
    exact ⟨hmem 12 (by simp), hmem 28 (by simp)⟩
  · intro ⟨h12, h28⟩
    unfold ownsTile at h12 h28
    cases hp12 : propGet g.properties 12 with
    | none => rw [hp12] at h12; simp at h12
    | some v12 =>
      cases hp28 : propGet g.properties 28 with
      | none => rw [hp28] at h28; simp at h28
      | some v28 =>
        rw [hp12] at h12
        rw [hp28] at h28
        simp only [Option.map_some', Option.getD_some] at h12 h28
        have hm12 := mem_of_propGet _ _ _ hp12
        have hm28 := mem_of_propGet _ _ _ hp28
        apply two_le_filter_length g.properties pred 12 28 v12 v28 hm12 hm28 ?_ ?_ (by omega)
        · rw [hpred]
          simp only [Bool.and_eq_true]
          exact ⟨h12, by decide⟩
        · rw [hpred]
          simp only [Bool.and_eq_true]
          exact ⟨h28, by decide⟩

/-! ## Claim theorems -/

set_option maxRecDepth 40000

/-- **C5 counterexample.** The claim's reference definition defaults the
utility dice sum to 7 "when no dice are recorded", but with an active turn
that has no recorded dice the code uses `dice_sum() = 0`: on `stateC5`
(utility 12 owned, unmortgaged, turn present with `dice = none`) the code
yields rent 0 while the claim's reference yields 7 × 4 = 28. -/
theorem rent_dice_default_counterexample :
    (stateC5.turn.bind (fun t => t.dice) = none) ∧
    ((propGet stateC5.properties 12).map (fun p => p.owner) = some (some 0)) ∧
    ((propGet stateC5.properties 12).map (fun p => p.is_mortgaged) = some false) ∧
    calculate_rent stateC5 12 = 0 ∧
    claimRent stateC5 12 = 28 ∧
    calculate_rent stateC5 12 ≠ claimRent stateC5 12 := by
  refine ⟨rfl, rfl, rfl, rfl, rfl, ?_⟩
  decide

/-- **C5 (amended).** For every owned, non-mortgaged tile the computed rent
equals the claim's reference definition, with the dice default amended:
the default sum 7 applies only when there is no active turn — an active
turn with no recorded dice contributes a dice sum of 0.  Hypotheses: the
property map keys are `Nodup` (the `HashMap` invariant) and house counts
are at most 5 (the spec invariant). -/
theorem rent_matches_reference (g : GameState) (idx : Nat)
    (hnd : (g.properties.map Prod.fst).Nodup)
    (hhouses : ∀ kv ∈ g.properties, kv.2.houses ≤ 5) :
    calculate_rent g idx = claimRentAmended g idx := by
  unfold calculate_rent claimRentAmended claimRentWithDice
  cases hgt : get_tile idx with
  | none => rfl
  | some tile =>
    dsimp only
    cases hps : propGet g.properties idx with
    | none => rfl
    | some ps =>
      dsimp only
      cases howner : ps.owner with
      | none => rfl
      | some oid =>
        dsimp only
        cases hm : ps.is_mortgaged with
        | true => rfl
        | false =>
          simp only [Bool.false_eq_true, if_false]
          have hmem := mem_of_propGet _ _ _ hps
          cases htt : tile.tile_type with
          | go => rfl
          | chance => rfl
          | communityChest => rfl
          | tax => rfl
          | freeParking => rfl
          | jail => rfl
          | goToJail => rfl
          | property =>
            dsimp only
            obtain ⟨hgs, hlen⟩ := board_property_facts tile (get_tile_mem idx tile hgt) htt
            by_cases hh : ps.houses > 0
            · rw [if_pos hh, if_pos hh]
              have hb5 : ps.houses ≤ 5 := hhouses (idx, ps) hmem
              have hlt : ps.houses - 1 < tile.rent_schedule.length := by omega
              cases hxg : tile.rent_schedule.get? (ps.houses - 1) with
              | none => exact absurd (List.get?_eq_none.mp hxg) (by omega)
              | some x => rfl
            · rw [if_neg hh, if_neg hh]
              obtain ⟨gr, hgr⟩ := Option.isSome_iff_exists.mp hgs
              rw [hgr]
              rfl
          | railroad =>
            dsimp only
            have hk1 : 1 ≤ ownedCountOfType g oid .railroad := by
              apply one_le_filter_length g.properties _ (idx, ps) hmem
              simp only [Bool.and_eq_true]
              constructor
              · simp [howner]
              · rw [hgt]
                simp [htt]
            have hk4 : ownedCountOfType g oid .railroad ≤ 4 := rr_count_le_four g oid hnd
            have hsched := board_railroad_schedule tile (get_tile_mem idx tile hgt) htt
            rw [hsched]
            have hlt : ownedCountOfType g oid .railroad - 1 <
                ([25, 50, 100, 200] : List Nat).length := by
              simp only [List.length_cons, List.length_nil]
              omega
            cases hxg : ([25, 50, 100, 200] : List Nat).get?
                (ownedCountOfType g oid .railroad - 1) with
            | none => exact absurd (List.get?_eq_none.mp hxg) (by omega)
            | some x => rfl
          | utility =>
            dsimp only
            by_cases hcnt : ownedCountOfType g oid .utility ≥ 2
            · rw [if_pos hcnt]
              obtain ⟨h12, h28⟩ := (util_count_two_iff g oid hnd).mp hcnt
              rw [if_pos (by simp [h12, h28])]
            · rw [if_neg hcnt]
              rw [if_neg (fun hb => hcnt ((util_count_two_iff g oid hnd).mpr
                ((Bool.and_eq_true _ _).mp hb)))]

/-- **C5 witness.** The amended reference agrees with the code on a
concrete state: utility 12 owned with a diceless active turn gives rent 0
on both sides. -/
theorem rent_matches_reference_witness :
    ((stateC5.properties.map Prod.fst).Nodup ∧ ∀ kv ∈ stateC5.properties, kv.2.houses ≤ 5) ∧
    calculate_rent stateC5 12 = claimRentAmended stateC5 12 ∧
    calculate_rent stateC5 12 = 0 :=
  ⟨⟨by decide, by decide⟩,
    rent_matches_reference stateC5 12 (by decide) (by decide), by decide⟩

/-- **C1 counterexample.** The claim says `buy_property` fails with a
domain error and leaves the state unchanged whenever the tile at the
current player's position is already owned.  On `stateC1` (phase
`BuyDecision`, tile 1 owned by player 1) the call succeeds, debits the
buyer 60, and overwrites the owner. -/
theorem buy_property_owned_counterexample :
    (stateC1.turn.map (fun t => t.phase) = some TurnPhase.buyDecision) ∧
    ((propGet stateC1.properties 1).map (fun p => p.owner) = some (some 1)) ∧
    ((stateC1.get_player 0).map (fun p => p.balance) = some 500) ∧
    (buy_property stateC1).isOk = true ∧
    ((buy_property stateC1).toOption.bind
      (fun g' => (g'.get_player 0).map (fun p => p.balance))) = some 440 ∧
    ((buy_property stateC1).toOption.bind
      (fun g' => (propGet g'.properties 1).map (fun p => p.owner))) = some (some 0) := by
  decide

/-- **C1 (amended).** `buy_property` checks only the turn phase and the
buyer's balance — never the current owner.  In phase `BuyDecision` with
balance ≥ price it debits the price, overwrites the owner with the buyer
(even when the tile is already owned by another player) and sets the
phase to `TurnEnd`. -/
theorem buy_property_ignores_owner (g : GameState) (t : TurnState) (pl : Player)
    (tile : Tile) (ps : PropertyState)
    (hturn : g.turn = some t) (hphase : t.phase = .buyDecision)
    (hpl : g.get_player t.player_id = some pl)
    (htile : get_tile pl.position = some tile)
    (hps : propGet g.properties pl.position = some ps)
    (hbal : (tile.price : Int) ≤ pl.balance) :
    ∃ g', buy_property g = Except.ok g' ∧
      (g'.get_player t.player_id).map (fun p => p.balance) =
        some (pl.balance - tile.price) ∧
      propGet g'.properties pl.position = some { ps with owner := some t.player_id } ∧
      g'.turn.map (fun u => u.phase) = some TurnPhase.turnEnd := by
  obtain ⟨g', hok, hbal', hprops, hturn'⟩ :=
    buy_property_ok g t pl tile hturn hphase hpl htile hbal
  refine ⟨g', hok, hbal', ?_, ?_⟩
  · rw [hprops, propGet_propUpdate, if_pos rfl, hps]
    rfl
  · rw [hturn']
    rfl

/-- **C1 witness.** The amended statement applied at `stateC1`. -/
theorem buy_property_ignores_owner_witness :
    ∃ g', buy_property stateC1 = Except.ok g' ∧
      (g'.get_player 0).map (fun p => p.balance) = some 440 ∧
      propGet g'.properties 1 = some ⟨some 0, 0, false⟩ ∧
      g'.turn.map (fun u => u.phase) = some TurnPhase.turnEnd := by
  have h := buy_property_ignores_owner stateC1 ⟨0, none, 0, .buyDecision, false⟩ playerA
    (Tile.mkProperty 1 "Salvador" .brown 60 2 [10, 30, 90, 160, 250] 50 "BR")
    ⟨some 1, 0, false⟩ rfl rfl rfl rfl rfl (by decide)
  simpa using h

/-- **C2 counterexample.** The claim says `build` is rejected whenever the
target tile (or a group member) is mortgaged.  On `stateC2` player 0 owns
the full Brown set with tile 3 mortgaged, yet `build_house` succeeds,
debits 50 and puts a house on the still-mortgaged tile. -/
theorem build_on_mortgaged_counterexample :
    ((propGet stateC2.properties 3).map (fun p => p.is_mortgaged) = some true) ∧
    player_has_full_set stateC2 0 ColorGroup.brown = true ∧
    (build_house stateC2 0 3).isOk = true ∧
    ((build_house stateC2 0 3).toOption.bind
      (fun g' => (propGet g'.properties 3).map (fun p => (p.houses, p.is_mortgaged)))) =
        some (1, true) ∧
    ((build_house stateC2 0 3).toOption.bind
      (fun g' => (g'.get_player 0).map (fun p => p.balance))) = some 450 := by
  decide

/-- **C2 (amended).** `build_house` checks that the tile is a Property,
that the player owns every tile of the color group (ownership only — the
mortgage flags are never consulted), that the balance covers `build_cost`
and that `houses < 5`.  Under those conditions it succeeds, with the
target tile's mortgage flag carried over unchanged. -/
theorem build_house_no_mortgage_check (g : GameState) (pid : Uuid) (idx : Nat)
    (tile : Tile) (group : ColorGroup) (pl : Player) (ps : PropertyState)
    (htile : get_tile idx = some tile)
    (hprop : tile.tile_type = .property)
    (hgroup : tile.group = some group)
    (hfull : player_has_full_set g pid group = true)
    (hpl : g.get_player pid = some pl)
    (hbal : (tile.build_cost : Int) ≤ pl.balance)
    (hps : propGet g.properties idx = some ps)
    (hh : ps.houses < 5) :
    ∃ g', build_house g pid idx = Except.ok g' ∧
      (g'.get_player pid).map Player.balance = some (pl.balance - tile.build_cost) ∧
      propGet g'.properties idx = some { ps with houses := ps.houses + 1 } :=
  build_house_ok g pid idx tile group pl ps htile hprop hgroup hfull hpl hbal hps hh

/-- **C2 witness.** The amended statement applied at `stateC2`, where the
target tile is mortgaged. -/
theorem build_house_no_mortgage_check_witness :
    ∃ g', build_house stateC2 0 3 = Except.ok g' ∧
      (g'.get_player 0).map Player.balance = some 450 ∧
      propGet g'.properties 3 = some ⟨some 0, 1, true⟩ := by
  have h := build_house_no_mortgage_check stateC2 0 3
    (Tile.mkProperty 3 "Rio" .brown 60 4 [20, 60, 180, 320, 450] 50 "BR")
    ColorGroup.brown playerA ⟨some 0, 0, true⟩ rfl rfl rfl (by decide) rfl (by decide)
    rfl (by decide)
  simpa using h

/-- **C3 counterexample.** The claim says a bid by a bidder in
`passed_players` is rejected.  On `stateC3` player 0 has passed, yet their
bid of 50 succeeds and becomes the highest bid. -/
theorem place_bid_passed_counterexample :
    ((stateC3.auction.map (fun a => a.passed_players.contains 0)).getD false = true) ∧
    (place_bid stateC3 0 50).isOk = true ∧
    ((place_bid stateC3 0 50).toOption.bind
      (fun g' => g'.auction.map (fun a => (a.current_bid, a.highest_bidder)))) =
        some (50, some 0) := by
  decide

/-- **C3 (amended).** `place_bid` checks only that the bidder's balance
(default 0 when the bidder is unknown) is at least `amount as i32` and that
`amount` strictly exceeds the current bid (default 0 when no auction
exists); it never consults `passed_players`.  On success with an auction it
updates only `current_bid` and `highest_bidder`; with no auction it
succeeds without mutating anything. -/
theorem place_bid_characterization (g : GameState) (pid : Uuid) (amount : Nat) :
    ((place_bid g pid amount).isOk = true ↔
      (toI32 amount ≤ ((g.get_player pid).map (fun p => p.balance)).getD 0 ∧
        (g.auction.map (fun a => a.current_bid)).getD 0 < amount)) ∧
    (∀ g', place_bid g pid amount = Except.ok g' →
      g'.players = g.players ∧ g'.properties = g.properties ∧ g'.turn = g.turn ∧
      g'.phase = g.phase ∧
      g'.auction = g.auction.map (fun a =>
        { a with current_bid := amount, highest_bidder := some pid })) ∧
    (g.auction = none → place_bid g pid amount = Except.ok g ∨
      (place_bid g pid amount).isOk = false) :=
  place_bid_spec g pid amount

/-- **C3 witness.** The characterization applied at `stateC3` with bid 50:
the bid is accepted because balance and current-bid checks pass, although
the bidder has already passed. -/
theorem place_bid_characterization_witness :
    (place_bid stateC3 0 50).isOk = true ∧
    toI32 50 ≤ ((stateC3.get_player 0).map (fun p => p.balance)).getD 0 ∧
    (stateC3.auction.map (fun a => a.current_bid)).getD 0 < 50 := by
  have h := (place_bid_characterization stateC3 0 50).1
  exact ⟨h.mpr ⟨by decide, by decide⟩, by decide, by decide⟩

/-- **C7 counterexample.** The claim asserts that landing exactly on Go
(`new_pos = 0`) credits nothing; but `new_pos = 0 < old_pos` holds whenever
`old_pos ≠ 0`, so the code credits $200: from position 35 with dice (2,3)
the player lands on 0 and the balance rises from 500 to 700. -/
theorem movement_pass_go_counterexample :
    ((stateC7.get_player 0).map (fun p => p.position) = some 35) ∧
    (moveStep stateC7 0 (2 + 3)).2.2.1 = 0 ∧
    ((moveStep stateC7 0 (2 + 3)).1.get_player 0).map (fun p => p.balance) = some 700 := by
  decide

/-- **C7 (amended).** In the movement step the new position is
`(p + d1 + d2) % 40` and $200 is credited exactly when
`new_pos < p ∧ p ≠ 0`; in particular landing exactly on Go (`new_pos = 0`)
**does** credit $200 whenever `p ≠ 0`. -/
theorem movement_step_spec (g : GameState) (pid : Uuid) (pl : Player) (d1 d2 : Nat)
    (hpl : g.get_player pid = some pl) :
    (moveStep g pid (d1 + d2)).2.2.1 = (pl.position + (d1 + d2)) % 40 ∧
    ((moveStep g pid (d1 + d2)).1.get_player pid).map (fun p => p.position) =
      some ((pl.position + (d1 + d2)) % 40) ∧
    ((moveStep g pid (d1 + d2)).1.get_player pid).map (fun p => p.balance) =
      some (pl.balance +
        (if (pl.position + (d1 + d2)) % 40 < pl.position ∧ pl.position ≠ 0 then 200 else 0)) ∧
    ((pl.position + (d1 + d2)) % 40 = 0 → pl.position ≠ 0 →
      ((moveStep g pid (d1 + d2)).1.get_player pid).map (fun p => p.balance) =
        some (pl.balance + 200)) := by
  obtain ⟨h1, h2, h3⟩ := moveStep_ok g pid pl (d1 + d2) hpl
  refine ⟨h1, h2, h3, ?_⟩
  intro h0 hp
  have hc : (pl.position + (d1 + d2)) % 40 < pl.position ∧ pl.position ≠ 0 := by
    constructor
    · rw [h0]
      omega
    · exact hp
  rw [h3, if_pos hc]

/-- **C7 witness.** The amended statement applied at `stateC7`. -/
theorem movement_step_spec_witness :
    (moveStep stateC7 0 (2 + 3)).2.2.1 = (35 + (2 + 3)) % 40 ∧
    ((moveStep stateC7 0 (2 + 3)).1.get_player 0).map (fun p => p.balance) =
      some (500 + 200) := by
  have h := movement_step_spec stateC7 0
    ⟨0, "A", "#FF5733", 35, 500, false, 0, 0, false, false, true⟩ 2 3 rfl
  exact ⟨h.1, h.2.2.2 (by decide) (by decide)⟩

/-- **C8.** For every ownable tile of the board catalog, the `f32`
expression `(mortgage_value as f32 * 1.1) as i32` of `unmortgage_property`
equals the exact integer `⌊mortgage_value × 11 / 10⌋`; consequently the
operation's balance threshold and its debit are both that exact floor. -/
theorem unmortgage_cost_exact (idx : Nat) (tile : Tile)
    (h : get_tile idx = some tile) (ho : is_ownable_tile idx = true) :
    unmortgage_cost tile.mortgage_value = tile.mortgage_value * 11 / 10 ∧
    ∀ g pid ps pl, propGet g.properties idx = some ps → ps.owner = some pid →
      ps.is_mortgaged = true → g.get_player pid = some pl →
      ((pl.balance < ((tile.mortgage_value * 11 / 10 : Nat) : Int) →
        unmortgage_property g pid idx = Except.error (AppError.gameError "Not enough money")) ∧
      (((tile.mortgage_value * 11 / 10 : Nat) : Int) ≤ pl.balance →
        ∃ g', unmortgage_property g pid idx = Except.ok g' ∧
          (g'.get_player pid).map Player.balance =
            some (pl.balance - ((tile.mortgage_value * 11 / 10 : Nat) : Int)))) := by
  have hfloor : unmortgage_cost tile.mortgage_value = tile.mortgage_value * 11 / 10 := by
    have hmem := get_tile_mem idx tile h
    have hall : ∀ u ∈ board,
        unmortgage_cost u.mortgage_value = u.mortgage_value * 11 / 10 := by decide
    exact hall tile hmem
  refine ⟨hfloor, ?_⟩
  intro g pid ps pl h1 h2 h3 h4
  have hspec := unmortgage_property_spec g pid idx tile ps pl h h1 h2 h3 h4
  rw [hfloor] at hspec
  obtain ⟨herr, hok⟩ := hspec
  exact ⟨herr, fun hge => (hok hge).imp (fun g' hg => ⟨hg.1, hg.2.1⟩)⟩

/-- **C8 witness.** Tile 39 (Tokyo, mortgage value 200): the `f32`
computation yields exactly 220 = ⌊200 × 11 / 10⌋. -/
theorem unmortgage_cost_exact_witness :
    ∃ tile, get_tile 39 = some tile ∧ is_ownable_tile 39 = true ∧
      unmortgage_cost tile.mortgage_value = tile.mortgage_value * 11 / 10 ∧
      unmortgage_cost tile.mortgage_value = 220 :=
  ⟨_, rfl, rfl, (unmortgage_cost_exact 39 _ rfl rfl).1, by decide⟩

/-- **C10.** The `Build`, `Mortgage` and `Unmortgage` client events are
dispatched with no game-phase and no turn-ownership check (the dispatch
equations hold for *every* state, including `GameOver`, another player's
turn, or a running auction), and each operation succeeds whenever its own
ownership / mortgage-status / house-count / balance preconditions hold. -/
theorem asset_ops_ungated (g : GameState) (pid : Uuid) (idx : Nat) (d1 d2 : Nat) :
    handle_event g pid (.build idx) d1 d2 = build_house g pid idx ∧
    handle_event g pid (.mortgage idx) d1 d2 = mortgage_property g pid idx ∧
    handle_event g pid (.unmortgage idx) d1 d2 = unmortgage_property g pid idx ∧
    (∀ tile ps pl, get_tile idx = some tile → propGet g.properties idx = some ps →
      ps.owner = some pid → ps.is_mortgaged = false → ps.houses = 0 →
      g.get_player pid = some pl →
      (mortgage_property g pid idx).isOk = true) ∧
    (∀ tile group pl ps, get_tile idx = some tile → tile.tile_type = .property →
      tile.group = some group → player_has_full_set g pid group = true →
      g.get_player pid = some pl → (tile.build_cost : Int) ≤ pl.balance →
      propGet g.properties idx = some ps → ps.houses < 5 →
      (build_house g pid idx).isOk = true) ∧
    (∀ tile ps pl, get_tile idx = some tile → propGet g.properties idx = some ps →
      ps.owner = some pid → ps.is_mortgaged = true → g.get_player pid = some pl →
      ((unmortgage_cost tile.mortgage_value : Nat) : Int) ≤ pl.balance →
      (unmortgage_property g pid idx).isOk = true) := by
  refine ⟨rfl, rfl, rfl, ?_, ?_, ?_⟩
  · intro tile ps pl h1 h2 h3 h4 h5 h6
    obtain ⟨g', hok, _⟩ := mortgage_property_ok g pid idx tile pl ps h1 h2 h3 h4 h5 h6
    rw [hok]
    rfl
  · intro tile group pl ps h1 h2 h3 h4 h5 h6 h7 h8
    obtain ⟨g', hok, _⟩ := build_house_ok g pid idx tile group pl ps h1 h2 h3 h4 h5 h6 h7 h8
    rw [hok]
    rfl
  · intro tile ps pl h1 h2 h3 h4 h5 h6
    obtain ⟨_, hok⟩ := unmortgage_property_spec g pid idx tile ps pl h1 h2 h3 h4 h5
    obtain ⟨g', hok', _⟩ := hok h6
    rw [hok']
    rfl

/-- **C10 witness.** On `stateC10` — phase `GameOver`, player 1's turn, an
auction in progress — player 0's `Mortgage` event is dispatched ungated and
succeeds. -/
theorem asset_ops_ungated_witness :
    stateC10.phase = GamePhase.gameOver ∧
    (stateC10.turn.map (fun t => t.player_id) = some 1) ∧
    stateC10.auction.isSome = true ∧
    handle_event stateC10 0 (.mortgage 1) 1 1 = mortgage_property stateC10 0 1 ∧
    (mortgage_property stateC10 0 1).isOk = true := by
  have h := asset_ops_ungated stateC10 0 1 1 1
  exact ⟨rfl, rfl, rfl, h.2.1, h.2.2.2.1
    (Tile.mkProperty 1 "Salvador" .brown 60 2 [10, 30, 90, 160, 250] 50 "BR")
    ⟨some 0, 0, false⟩ playerA rfl rfl rfl rfl rfl rfl⟩

/-- **C6.** A third consecutive doubles roll jails the roller: position 10,
`in_jail`, `jail_turns = 0`, `doubles_count = 0`, phase `TurnEnd`,
`can_roll_again = false`; the balance is unchanged and no movement or
landing effect is applied (properties and the jackpot pot are untouched,
and the player record changes only in the three jail fields). -/
theorem roll_dice_third_double_jails (g : GameState) (t : TurnState) (pl : Player)
    (d : Nat)
    (hturn : g.turn = some t) (hphase : t.phase = .waitingForRoll)
    (hdc : t.doubles_count = 2)
    (hpl : g.get_player t.player_id = some pl) :
    ∃ g', roll_dice g d d = Except.ok g' ∧
      g'.get_player t.player_id =
        some { pl with position := 10, in_jail := true, jail_turns := 0 } ∧
      g'.turn = some { t with dice := some (d, d), doubles_count := 0, phase := .turnEnd, can_roll_again := false } ∧
      g'.properties = g.properties ∧
      g'.pot_money = g.pot_money := by
  unfold roll_dice
  simp only [hturn]
  rw [if_neg (by simp [hphase])]
  simp only [beq_self_eq_true, if_true, hdc]
  rw [if_pos (by norm_num)]
  unfold send_to_jail
  simp only [setTurn_get_player, hpl]
  refine ⟨_, rfl, ?_, ?_, ?_, ?_⟩
  · simp only [setTurn_get_player, addLog_get_player]
    have hup := get_player_updatePlayer
      ({ g with turn := some { t with dice := some (d, d), phase := TurnPhase.moving, doubles_count := 2 + 1 } } : GameState)
      t.player_id t.player_id
      (fun p => { p with position := 10, in_jail := true, jail_turns := 0 }) (fun p => rfl)
    rw [if_pos rfl] at hup
    rw [hup]
    simp only [setTurn_get_player, hpl, Option.map_some']
  · simp only [addLog_turn, updatePlayer_turn]
    rfl
  · simp only [setTurn_properties, addLog_properties, updatePlayer_properties]
  · simp only [setTurn_pot, addLog_pot, updatePlayer_pot]

/-- **C6 witness.** The statement applied at `stateC6` with dice (5,5). -/
theorem roll_dice_third_double_jails_witness :
    ∃ g', roll_dice stateC6 5 5 = Except.ok g' ∧
      g'.get_player 0 = some ⟨0, "A", "#FF5733", 10, 500, true, 0, 0, false, false, true⟩ ∧
      g'.turn = some ⟨0, some (5, 5), 0, .turnEnd, false⟩ ∧
      g'.properties = stateC6.properties ∧
      g'.pot_money = stateC6.pot_money := by
  have h := roll_dice_third_double_jails stateC6 ⟨0, none, 2, .waitingForRoll, false⟩
    playerA 5 rfl rfl rfl rfl
  simpa using h

/-- **C4.** `pass_bid` appends the bidder to `passed_players` exactly when
absent; if afterwards the passed count reaches `active_player_count - 1`
the auction is removed and settled (a highest bidder is debited the current
bid and becomes the owner; nobody is debited when there is no bidder; the
turn phase becomes `TurnEnd`), and otherwise the auction persists with
`current_bid` and `highest_bidder` unchanged.  Hypotheses: an auction and a
turn exist, at least one player is active, the bid fits in `i32`, the
auctioned tile has a property entry, and a recorded highest bidder is an
existing player. -/
theorem pass_bid_settlement (g : GameState) (bidder : Uuid) (A : AuctionState)
    (t : TurnState)
    (hA : g.auction = some A) (hturn : g.turn = some t)
    (hactive : 1 ≤ g.active_player_count)
    (hbid : A.current_bid < 2 ^ 31)
    (hpse : (propGet g.properties A.tile_idx).isSome = true)
    (hw : ∀ w, A.highest_bidder = some w → (g.get_player w).isSome = true) :
    ∃ g', pass_bid g bidder = Except.ok g' ∧
      (let A' := if A.passed_players.contains bidder then A
                 else { A with passed_players := A.passed_players ++ [bidder] };
       if g.active_player_count - 1 ≤ A'.passed_players.length then
         g'.auction = none ∧
         g'.turn = some { t with phase := .turnEnd } ∧
         (match A.highest_bidder with
          | some w =>
            ((g'.get_player w).map (fun p => p.balance) =
              (g.get_player w).map (fun p => p.balance - (A.current_bid : Int))) ∧
            (propGet g'.properties A.tile_idx).map (fun p => p.owner) = some (some w)
          | none => g'.players = g.players ∧ g'.properties = g.properties)
       else
         g'.auction = some A' ∧ A'.current_bid = A.current_bid ∧
         A'.highest_bidder = A.highest_bidder ∧
         g'.players = g.players ∧ g'.properties = g.properties ∧ g'.turn = g.turn) := by
  unfold pass_bid
  simp only [hA, Option.map_some', Option.getD_some, setAuction_active]
  set A' := if A.passed_players.contains bidder then A
            else { A with passed_players := A.passed_players ++ [bidder] } with hA'
  have hcb : A'.current_bid = A.current_bid := by
    rw [hA']
    by_cases hc : A.passed_players.contains bidder = true
    · rw [if_pos hc]
    · rw [if_neg hc]
  have hhb : A'.highest_bidder = A.highest_bidder := by
    rw [hA']
    by_cases hc : A.passed_players.contains bidder = true
    · rw [if_pos hc]
    · rw [if_neg hc]
  have hti : A'.tile_idx = A.tile_idx := by
    rw [hA']
    by_cases hc : A.passed_players.contains bidder = true
    · rw [if_pos hc]
    · rw [if_neg hc]
  by_cases hcond : g.active_player_count - 1 ≤ A'.passed_players.length
  · rw [if_pos (Or.inl hcond)]
    unfold end_auction
    try dsimp only
    rw [hti, hcb, hhb]
    cases hhbv : A.highest_bidder with
    | none =>
      try dsimp only
      refine ⟨_, rfl, ?_⟩
      rw [if_pos hcond]
      refine ⟨by simp, ?_, by simp, by simp⟩
      simp only [setTurnPhase_turn, addLog_turn, hturn]
      rfl
    | some w =>
      try dsimp only
      obtain ⟨wp, hwp⟩ := Option.isSome_iff_exists.mp (hw w hhbv)
      rw [show ({ g with auction := none } : GameState).get_player w = some wp from hwp]
      refine ⟨_, rfl, ?_⟩
      rw [if_pos hcond]
      refine ⟨by simp, ?_, ?_, ?_⟩
      · simp only [setTurnPhase_turn, addLog_turn, updateProp_turn, updatePlayer_turn]
        rw [show ({ g with auction := none } : GameState).turn = g.turn from rfl, hturn]
        rfl
      · simp only [setTurnPhase_get_player, addLog_get_player, updateProp_get_player]
        have hup := get_player_updatePlayer
          ({ g with auction := none } : GameState) w w
          (fun p => { p with balance := p.balance - toI32 A.current_bid }) (fun p => rfl)
        rw [if_pos rfl] at hup
        rw [show ({ g with auction := none } : GameState).get_player w = some wp from hwp]
          at hup
        rw [hup, show (g.get_player w) = some wp from hwp]
        simp only [Option.map_some']
        rw [toI32_of_lt A.current_bid hbid]
      · simp only [setTurnPhase_properties, addLog_properties, updateProp_properties,
          updatePlayer_properties]
        rw [show ({ g with auction := none } : GameState).properties = g.properties from rfl]
        rw [propGet_propUpdate, if_pos rfl]
        obtain ⟨ps0, hps0⟩ := Option.isSome_iff_exists.mp hpse
        rw [hps0]
        rfl
  · rw [if_neg (by
      intro hor
      rcases hor with h1 | h2
      · exact hcond h1
      · exact hcond (le_trans (Nat.sub_le _ _) h2))]
    refine ⟨_, rfl, ?_⟩
    rw [if_neg hcond]
    exact ⟨rfl, hcb, hhb, rfl, rfl, rfl⟩

/-- **C4 witness.** On `stateC4` (two players, auction on tile 6 with
highest bid 50 by player 1) player 0's pass ends the auction: player 1 is
debited 50 and owns tile 6, and the turn phase is `TurnEnd`. -/
theorem pass_bid_settlement_witness :
    ∃ g', pass_bid stateC4 0 = Except.ok g' ∧ g'.auction = none ∧
      g'.turn = some ⟨0, none, 0, .turnEnd, false⟩ ∧
      (g'.get_player 1).map (fun p => p.balance) = some 450 ∧
      (propGet g'.properties 6).map (fun p => p.owner) = some (some 1) := by
  obtain ⟨g', hok, hrest⟩ := pass_bid_settlement stateC4 0 ⟨6, 50, some 1, []⟩
    ⟨0, none, 0, .auction, false⟩ rfl rfl (by decide) (by decide) rfl
    (fun w hweq => by injection hweq with h; subst h; rfl)
  rw [if_pos (by decide)] at hrest
  obtain ⟨h1, h2, h3, h4⟩ := hrest
  exact ⟨g', hok, h1, h2, by rw [h3]; decide, h4⟩

/-- When the auctioned tile (a member of the group) is unowned and the map
keys are `Nodup`, any player owns at most `group size - 1` tiles of the
group. -/
theorem ownedInGroup_le (g : GameState) (pid : Uuid) (group : ColorGroup)
    (idx : Nat) (tile : Tile)
    (hnd : (g.properties.map Prod.fst).Nodup)
    (htile : get_tile idx = some tile) (hgroup : tile.group = some group)
    (hunowned : (propGet g.properties idx).bind (fun p => p.owner) = none) :
    ownedInGroup g pid group ≤ group.property_count - 1 := by
  unfold ownedInGroup
  have hk0 : idx ∈ group_tile_indices group := by
    apply group_idx_mem group idx
    rw [htile]
    simp [hgroup]
  have h := filter_length_le_keys_sub g.properties
    (fun kv => kv.2.owner == some pid &&
      ((get_tile kv.1).bind (fun t => t.group) == some group))
    (group_tile_indices group) idx hnd hk0 ?_ ?_
  · rwa [group_tile_indices_length] at h
  · intro kv hkv
    rw [Bool.and_eq_true] at hkv
    exact group_idx_mem group kv.1 hkv.2
  · intro v hv
    have hpg : propGet g.properties idx = some v := propGet_of_mem_nodup _ _ _ hnd hv
    rw [hpg] at hunowned
    simp only [Option.some_bind] at hunowned
    simp [hunowned]

/-- Pointwise-equal boolean predicates give equal `List.any`. -/
theorem list_any_congr {α : Type} (l : List α) (f1 f2 : α → Bool)
    (h : ∀ a ∈ l, f1 a = f2 a) : l.any f1 = l.any f2 := by
  induction l with
  | nil => rfl
  | cons a tl ih =>
    simp only [List.any_cons, h a (by simp)]
    rw [ih (fun x hx => h x (by simp [hx]))]

/-- The `f32` valuation chain agrees with the exact integer formula on
every (price, priority, flags) combination arising from the board. -/
theorem board_maxBidChain (tile : Tile) (ht : tile ∈ board) (gr : ColorGroup)
    (hg : tile.group = some gr) (c b : Bool) :
    maxBidChain tile.price (priorityOf gr) c b =
      tile.price * (10 + priorityOf gr) *
        (if c then 18 else 10) * (if b then 15 else 10) / 1000 := by
  have hall : ∀ u ∈ board, ∀ gr' : ColorGroup, u.group = some gr' → ∀ c' b' : Bool,
      maxBidChain u.price (priorityOf gr') c' b' =
        u.price * (10 + priorityOf gr') *
          (if c' then 18 else 10) * (if b' then 15 else 10) / 1000 := by decide
  exact hall tile ht gr hg c b

/-- `(balance as f32 * 0.5) as u32 = balance / 2` for balances below `2^24`
(in that range the `f32` conversion and halving are exact). -/
theorem half_balance (b : Nat) (hb : b < 2 ^ 24) :
    f32Trunc (f32Mul (f32OfNat b) f32Lit0_5) = b / 2 := by
  have h05 : f32Lit0_5 = (8388608, 24) := by decide
  have hb0 : f32OfNat b = (b, 0) := by
    unfold f32OfNat f32Round
    rw [if_pos hb]
  rw [hb0, h05]
  unfold f32Mul
  have hrd : f32Round (b * 8388608) (0 + 24) = (b * 8388608, 0 + 24) :=
    f32Round_eq_self _ _ b 23 (by norm_num) hb
  rw [hrd]
  unfold f32Trunc
  have h2 : (2 : Nat) ^ (0 + 24) = 8388608 * 2 := by norm_num
  rw [h2, mul_comm b 8388608]
  exact Nat.mul_div_mul_left b 2 (by norm_num)

/-- **C9.** The bot's maximum auction bid is
`min(⌊price × (1 + priority×0.1) × (1.8 if completing) × (1.5 if blocking)⌋,
⌊balance × 0.5⌋)` with the claimed priority table — the `f32` chain is
exact on every board combination.  "Completing" / "blocking" mean owning
all group tiles but one, which under the hypotheses (auctioned tile
unowned, `Nodup` keys) coincides with the code's `≥ size - 1` tests.
Balance hypotheses keep the `f32` halving exact and nonnegative. -/
theorem calculate_max_bid_spec (g : GameState) (bot_id : Uuid) (idx : Nat)
    (tile : Tile) (group : ColorGroup) (bot : Player)
    (htile : get_tile idx = some tile) (hgroup : tile.group = some group)
    (hbot : g.get_player bot_id = some bot)
    (hbal0 : 0 ≤ bot.balance) (hbal : bot.balance < 2 ^ 24)
    (hnd : (g.properties.map Prod.fst).Nodup)
    (hunowned : (propGet g.properties idx).bind (fun p => p.owner) = none) :
    (∀ gr : ColorGroup, priorityOf gr = claimPriority gr) ∧
    calculate_max_bid g bot_id idx =
      min (tile.price * (10 + claimPriority group) *
          (if ownedInGroup g bot_id group = group.property_count - 1 then 18 else 10) *
          (if (g.players.filter (fun p => p.id != bot_id && !p.is_bankrupt)).any
              (fun p => ownedInGroup g p.id group = group.property_count - 1) then 15 else 10)
          / 1000)
        (bot.balance.toNat / 2) := by
  have hprio : ∀ gr : ColorGroup, priorityOf gr = claimPriority gr := by decide
  refine ⟨hprio, ?_⟩
  unfold calculate_max_bid
  simp only [hbot, htile, hgroup]
  have hle := ownedInGroup_le g bot_id group idx tile hnd htile hgroup hunowned
  have hcompl : decide (ownedInGroup g bot_id group ≥ group.property_count - 1) =
      decide (ownedInGroup g bot_id group = group.property_count - 1) := by
    apply decide_eq_decide.mpr
    omega
  have hblocks : (g.players.filter (fun p => p.id != bot_id && !p.is_bankrupt)).any
        (fun p => decide (ownedInGroup g p.id group ≥ group.property_count - 1)) =
      (g.players.filter (fun p => p.id != bot_id && !p.is_bankrupt)).any
        (fun p => decide (ownedInGroup g p.id group = group.property_count - 1)) := by
    apply list_any_congr
    intro p _
    have hlep := ownedInGroup_le g p.id group idx tile hnd htile hgroup hunowned
    apply decide_eq_decide.mpr
    omega
  rw [hcompl, hblocks]
  rw [board_maxBidChain tile (get_tile_mem idx tile htile) group hgroup _ _]
  rw [if_neg (not_lt.mpr hbal0)]
  rw [half_balance bot.balance.toNat (by omega)]
  rw [hprio group]
  simp only [decide_eq_true_eq]

/-- **C9 witness.** On `stateC9` the bot owns two of the three Light Blue
tiles and bids on the third: `min(⌊100 × 1.2 × 1.8⌋, ⌊1000 × 0.5⌋) = 216`. -/
theorem calculate_max_bid_spec_witness :
    calculate_max_bid stateC9 0 6 = 216 ∧ ownedInGroup stateC9 0 .lightBlue = 2 := by
  have h := (calculate_max_bid_spec stateC9 0 6
    (Tile.mkProperty 6 "Tel Aviv" .lightBlue 100 6 [30, 90, 270, 400, 550] 50 "IL")
    ColorGroup.lightBlue ⟨0, "A", "#FF5733", 6, 1000, false, 0, 0, true, false, true⟩
    rfl rfl rfl (by decide) (by decide) (by decide) rfl).2
  rw [h]
  exact ⟨by decide, by decide⟩

end Monopoly
